import Mathlib

/-!
# CSpxSession: rendezvous and listener dispatch (source/core/sr/session.cpp)

A shallow embedding of `CSpxSession`.  The member functions become functions on an
explicit state record that holds the session's members, the part of the heap the code
observes through `weak_ptr::lock` and `dynamic_pointer_cast`, the dispatches other
threads still have in flight, and a trace of the actions performed on the collaborators
(mutex, condition variable, factory, recognition hooks, listener callbacks), in the order
in which they happen.

Modelling decisions:
* a `shared_ptr`/raw pointer is an `Option`, with `none` for `nullptr`;
* a `weak_ptr<ISpxRecognizer>` is the `Option ObjId` it was made from; it resolves
  (`weakLock`) to `none` once its target is in `expired`;
* calling through a null `shared_ptr` is the fault `Fault.nullDeref`, after which
  nothing more runs;
* a listener callback is an external call recorded in the trace; what listeners and other
  threads do to the registry between the two snapshots of `FireSessionStoppedEvent` is
  the argument `meanwhile` of that function;
* a `WaitForRecognition_Complete` called by another thread (`deliver`) runs its locked
  part at once and leaves its `FireResultEvent` in flight; the in-flight dispatch advances
  one step at a time (`dispatchStep`) at the points where the environment is scheduled:
  `WaitOutcome` inside the timed wait, `TaskEnv` around the statements of the
  `RecognizeAsync` task;
* durations (the timeout, the sleeps) are not modelled.
-/

/-- Identity of a recognizer object: the pointer value under which it is reached. -/
abbrev ObjId := Nat

/-- Recognition results are opaque to the session. -/
abbrev Res := Nat

/-- The session identifier (`std::wstring` produced by `PAL::CreateGuid`), kept abstract. -/
abbrev SessionId := Nat

/-- Wide string, as a list of code units. -/
abbrev WString := List Nat

inductive RecognitionKind
  | SingleShot
  | Continuous
  | Keyword
  deriving DecidableEq, Repr

/-- Only `ResultType::Speech` is used by this file of the repository. -/
inductive ResultType
  | Speech
  deriving DecidableEq, Repr

/-- Modelled from the spec: the declaration of the status enumeration is not in this
source file; the code names `AOS_Started`, the spec lists Started, Completed, Error. -/
inductive AsyncOpState
  | AOS_Started
  | AOS_Completed
  | AOS_Error
  deriving DecidableEq, Repr

/-- Faults of the embedding. -/
inductive Fault
  | nullDeref
  deriving DecidableEq, Repr

/-- Actions recorded in the trace, in the order in which they happen. -/
inductive Ev
  | mutexLock
  | mutexUnlock
  | listRead
  | listWrite
  | notifyAll
  | dbgAssert (holds : Bool)
  | CreateNoMatchResult (t : ResultType)
  | StartRecognizing (kind : RecognitionKind) (keyword : WString)
  | StopRecognizing (kind : RecognitionKind)
  | FireSessionStarted (listener : ObjId) (sessionId : SessionId)
  | FireSessionStopped (listener : ObjId) (sessionId : SessionId)
  | FireResultEvent (listener : ObjId) (sessionId : SessionId) (result : Option Res)
  deriving DecidableEq, Repr

/-- What happens while `wait_for` is blocked with the waiting flag set: the timeout
elapses with nothing delivered, or another thread calls
`WaitForRecognition_Complete(result)`; that thread releases the mutex before its
`FireResultEvent`, of which `dispatched` steps happen before the waiter has the mutex
again. -/
inductive WaitOutcome
  | timeout
  | delivered (result : Option Res) (dispatched : Nat)
  deriving DecidableEq, Repr

/-- A `FireResultEvent(sessionId, result)` that another thread has in flight:
`remaining` is `none` until that thread has copied the list, then the part of its copy
not yet visited. -/
structure Dispatch where
  sessionId : SessionId
  result : Option Res
  remaining : Option (List (Option ObjId))
  deriving DecidableEq, Repr

/-- The members of `CSpxSession` (`m_...`), the observed heap (`expired`: objects whose
last owner is gone; `plain`: objects whose dynamic type does not implement
`ISpxRecognizerEvents`), the dispatches other threads have in flight, and the trace. -/
structure CSpxSession where
  m_recognizers : List (Option ObjId)
  m_recoAsyncWaiting : Bool
  m_recoAsyncResult : Option Res
  m_sessionId : SessionId
  expired : List ObjId
  plain : List ObjId
  inflight : List Dispatch
  log : List Ev
  deriving DecidableEq, Repr

/-- The value `CSpxAsyncOp<T>` built by the launchers: the future (the packaged task,
run on a detached thread) and the state it is constructed with. -/
structure CSpxAsyncOp (α : Type) where
  future : α
  state : AsyncOpState

/-- Calls on the registry and the one thing its environment does: the last owner of a
recognizer releasing it. -/
inductive RegOp
  | add (recognizer : Option ObjId)
  | remove (recognizer : Option ObjId)
  | destroy (o : ObjId)
  deriving DecidableEq, Repr

/-- What another thread does when it is scheduled: call
`WaitForRecognition_Complete(result)`, or advance the oldest in-flight dispatch by one
step. -/
inductive EnvStep
  | deliver (result : Option Res)
  | dispatch
  deriving DecidableEq, Repr

/-- What other threads do around the statements of the `RecognizeAsync` task: after the
flag is set and before `StartRecognizing` is called, while `StartRecognizing` runs, while
the task is blocked in the timed wait, between the return of `WaitForRecognition` and the
call of `StopRecognizing`, and while `StopRecognizing` runs. -/
structure TaskEnv where
  beforeStart : List EnvStep
  duringStart : List EnvStep
  wait : WaitOutcome
  beforeStop : List EnvStep
  duringStop : List EnvStep

namespace CSpxSession

/-- Constructor: `m_recoAsyncWaiting(false)`, `m_sessionId(PAL::CreateGuid())`; the list
and the stored result are default-constructed. -/
def new (guid : SessionId) (expired plain : List ObjId) : CSpxSession :=
  { m_recognizers := [], m_recoAsyncWaiting := false, m_recoAsyncResult := none,
    m_sessionId := guid, expired := expired, plain := plain, inflight := [], log := [] }

/-- Append one action to the trace. -/
def emit (e : Ev) (s : CSpxSession) : CSpxSession :=
  { s with log := s.log ++ [e] }

def GetSessionId (s : CSpxSession) : SessionId :=
  s.m_sessionId

/-- Resolution `item.lock()` of a weak reference: `nullptr` for an empty reference and
for one whose target is gone. -/
def weakLock (expired : List ObjId) (item : Option ObjId) : Option ObjId :=
  match item with
  | none => none
  | some o => if o ∈ expired then none else some o

/-- Narrowing `std::dynamic_pointer_cast<ISpxRecognizerEvents>(recognizer)`. -/
def dynamicPointerCast (plain : List ObjId) (recognizer : Option ObjId) : Option ObjId :=
  match recognizer with
  | none => none
  | some o => if o ∈ plain then none else some o

/-- `m_recognizers.push_back(recognizer)`. -/
def AddRecognizer (recognizer : Option ObjId) (s : CSpxSession) : CSpxSession :=
  emit .listWrite { s with m_recognizers := s.m_recognizers ++ [recognizer] }

/-- `m_recognizers.remove_if(item.lock().get() == recognizer)`. -/
def RemoveRecognizer (recognizer : Option ObjId) (s : CSpxSession) : CSpxSession :=
  emit .listWrite
    { s with m_recognizers :=
        s.m_recognizers.filter (fun item => !decide (weakLock s.expired item = recognizer)) }

def stepReg : RegOp → CSpxSession → CSpxSession
  | .add p, s => AddRecognizer p s
  | .remove p, s => RemoveRecognizer p s
  | .destroy o, s => { s with expired := o :: s.expired }

def runReg : List RegOp → CSpxSession → CSpxSession
  | [], s => s
  | op :: ops, s => runReg ops (stepReg op s)

/-- The `for (auto weakRecognizer : weakRecognizers)` loop shared by the three
dispatchers; `fire` is the callback invoked through `ptr`.  The guard tests
`recognizer`, the call goes through `ptr`. -/
def forEachRecognizer (fire : ObjId → Ev) :
    List (Option ObjId) → CSpxSession → Except Fault CSpxSession
  | [], s => .ok s
  | weakRecognizer :: rest, s =>
    let recognizer := weakLock s.expired weakRecognizer
    let ptr := dynamicPointerCast s.plain recognizer
    match recognizer with
    | none => forEachRecognizer fire rest s
    | some _ =>
      match ptr with
      | none => .error .nullDeref
      | some p => forEachRecognizer fire rest (emit (fire p) s)

/-- Copy of the list taken between `lock` and `lock.unlock()`. -/
def snapshot (s : CSpxSession) : CSpxSession :=
  emit .mutexUnlock (emit .listRead (emit .mutexLock s))

def FireSessionStartedEvent (s : CSpxSession) : Except Fault CSpxSession :=
  let weakRecognizers := s.m_recognizers
  forEachRecognizer (fun p => .FireSessionStarted p s.m_sessionId) weakRecognizers (snapshot s)

def FireResultEvent (sessionId : SessionId) (result : Option Res) (s : CSpxSession) :
    Except Fault CSpxSession :=
  let weakRecognizers := s.m_recognizers
  forEachRecognizer (fun p => .FireResultEvent p sessionId result) weakRecognizers (snapshot s)

/-- The part of `WaitForRecognition_Complete` under the mutex, `lock` to `lock.unlock()`. -/
def completeLocked (result : Option Res) (s : CSpxSession) : CSpxSession :=
  let s1 := emit .mutexLock s
  let s2 :=
    if s1.m_recoAsyncWaiting then
      emit .notifyAll { s1 with m_recoAsyncWaiting := false, m_recoAsyncResult := result }
    else s1
  emit .mutexUnlock s2

/-- The call as the calling thread runs it: the locked part, then the dispatch. -/
def WaitForRecognition_Complete (result : Option Res) (s : CSpxSession) :
    Except Fault CSpxSession :=
  let s3 := completeLocked result s
  FireResultEvent (GetSessionId s3) result s3

/-- The call as made by another thread: its locked part runs, its
`FireResultEvent(GetSessionId(), result)` is left in flight. -/
def deliver (result : Option Res) (s : CSpxSession) : CSpxSession :=
  let s3 := completeLocked result s
  { s3 with inflight :=
      s3.inflight ++ [{ sessionId := GetSessionId s3, result := result, remaining := none }] }

/-- One step of the oldest in-flight `FireResultEvent`: the copy of the list under the
mutex, then one reference of the copy per step (the body of the loop), then its end. -/
def dispatchStep (s : CSpxSession) : Except Fault CSpxSession :=
  match s.inflight with
  | [] => .ok s
  | d :: ds =>
    match d.remaining with
    | none =>
      .ok { snapshot s with inflight := { d with remaining := some s.m_recognizers } :: ds }
    | some [] => .ok { s with inflight := ds }
    | some (weakRecognizer :: rest) =>
      let recognizer := weakLock s.expired weakRecognizer
      let ptr := dynamicPointerCast s.plain recognizer
      match recognizer with
      | none => .ok { s with inflight := { d with remaining := some rest } :: ds }
      | some _ =>
        match ptr with
        | none => .error .nullDeref
        | some p =>
          .ok { emit (.FireResultEvent p d.sessionId d.result) s with
                  inflight := { d with remaining := some rest } :: ds }

/-- The other threads run the given steps. -/
def envRun : List EnvStep → CSpxSession → Except Fault CSpxSession
  | [], s => .ok s
  | .deliver result :: steps, s => envRun steps (deliver result s)
  | .dispatch :: steps, s =>
    match dispatchStep s with
    | .error f => .error f
    | .ok s1 => envRun steps s1

/-- The factory reached by `SpxQueryService<ISpxRecoResultFactory>(this)` is the
parameter `factory` (its `CreateNoMatchResult`). -/
def EnsureFireResultEvent (factory : ResultType → Option Res) (s : CSpxSession) :
    Except Fault CSpxSession :=
  if s.m_recoAsyncWaiting then
    let noMatchResult := factory ResultType.Speech
    WaitForRecognition_Complete noMatchResult (emit (.CreateNoMatchResult ResultType.Speech) s)
  else .ok s

/-- The timed wait `m_cv.wait_for(lock, timeout, [&] { return !m_recoAsyncWaiting; })`:
returns at once when the predicate holds; otherwise releases the mutex, blocks, and
re-acquires it after `outcome`. -/
def waitFor (outcome : WaitOutcome) (s : CSpxSession) : Except Fault CSpxSession :=
  if !s.m_recoAsyncWaiting then .ok s
  else
    match outcome with
    | .timeout => .ok (emit .mutexLock (emit .mutexUnlock s))
    | .delivered result dispatched =>
      match envRun (.deliver result :: List.replicate dispatched .dispatch)
          (emit .mutexUnlock s) with
      | .error f => .error f
      | .ok s1 => .ok (emit .mutexLock s1)

/-- Returns the state after the call and the returned pointer.  `std::move` leaves
`m_recoAsyncResult` null; the `unique_lock` is released by `lock.unlock()` on the
fallback path and at scope exit otherwise. -/
def WaitForRecognition (factory : ResultType → Option Res) (outcome : WaitOutcome)
    (s : CSpxSession) : Except Fault (CSpxSession × Option Res) :=
  match waitFor outcome (emit .mutexLock s) with
  | .error f => .error f
  | .ok s1 =>
    if s1.m_recoAsyncResult = none then
      match EnsureFireResultEvent factory (emit .mutexUnlock s1) with
      | .error f => .error f
      | .ok s2 =>
        let s3 := emit (.dbgAssert (decide (s2.m_recoAsyncResult ≠ none))) s2
        .ok ({ s3 with m_recoAsyncResult := none }, s3.m_recoAsyncResult)
    else
      let s3 := emit (.dbgAssert (decide (s1.m_recoAsyncResult ≠ none))) s1
      .ok (emit .mutexUnlock { s3 with m_recoAsyncResult := none }, s3.m_recoAsyncResult)

/-- The body sleeps 500ms; the call is recorded. -/
def StartRecognizing (startKind : RecognitionKind) (keyword : WString) (s : CSpxSession) :
    CSpxSession :=
  emit (.StartRecognizing startKind keyword) s

/-- The body sleeps 1000ms; the call is recorded. -/
def StopRecognizing (stopKind : RecognitionKind) (s : CSpxSession) : CSpxSession :=
  emit (.StopRecognizing stopKind) s

/-- The packaged task of `RecognizeAsync`, with the other threads scheduled around its
statements as `env` says. -/
def RecognizeAsync_task (factory : ResultType → Option Res) (env : TaskEnv)
    (s : CSpxSession) : Except Fault (CSpxSession × Option Res) :=
  let s1 := { s with m_recoAsyncWaiting := true }
  match envRun env.beforeStart s1 with
  | .error f => .error f
  | .ok s2 =>
    match envRun env.duringStart (StartRecognizing .SingleShot [] s2) with
    | .error f => .error f
    | .ok s3 =>
      match WaitForRecognition factory env.wait s3 with
      | .error f => .error f
      | .ok (s4, result) =>
        match envRun env.beforeStop s4 with
        | .error f => .error f
        | .ok s5 =>
          match envRun env.duringStop (StopRecognizing .SingleShot s5) with
          | .error f => .error f
          | .ok s6 => .ok (s6, result)

def RecognizeAsync (factory : ResultType → Option Res) :
    CSpxAsyncOp (TaskEnv → CSpxSession → Except Fault (CSpxSession × Option Res)) :=
  { future := RecognizeAsync_task factory, state := .AOS_Started }

/-- The registry calls made between the two snapshots, by the listeners from their result
callbacks or by other threads (`AddRecognizer` and `RemoveRecognizer` take no lock), and
the releases of listeners in that time, are `meanwhile`. -/
def FireSessionStoppedEvent (factory : ResultType → Option Res) (meanwhile : List RegOp)
    (s : CSpxSession) : Except Fault CSpxSession :=
  match EnsureFireResultEvent factory s with
  | .error f => .error f
  | .ok s1 =>
    let s2 := runReg meanwhile s1
    let weakRecognizers := s2.m_recognizers
    forEachRecognizer (fun p => .FireSessionStopped p s2.m_sessionId) weakRecognizers
      (snapshot s2)

end CSpxSession

namespace CSpxSession

/-! ## Vocabulary of the statements -/

/-- The registered references that resolve, in list order. -/
def liveRecognizers (s : CSpxSession) : List ObjId :=
  s.m_recognizers.filterMap (weakLock s.expired)

/-- Every registered reference that resolves narrows to `ISpxRecognizerEvents`: the
registered objects are listeners in the sense of the listener capability. -/
def eventsCapable (s : CSpxSession) : Prop :=
  ∀ o ∈ liveRecognizers s, o ∉ s.plain

instance (s : CSpxSession) : Decidable (eventsCapable s) :=
  inferInstanceAs (Decidable (∀ o ∈ liveRecognizers s, o ∉ s.plain))

/-- The listener a callback is delivered to. -/
def listenerOf : Ev → Option ObjId
  | .FireSessionStarted l _ => some l
  | .FireSessionStopped l _ => some l
  | .FireResultEvent l _ _ => some l
  | _ => none

/-- The callbacks that listener `l` receives in a trace, in order. -/
def received (l : ObjId) (log : List Ev) : List Ev :=
  log.filter (fun e => decide (listenerOf e = some l))

/-- The listener callbacks of a trace, in order. -/
def notifications (log : List Ev) : List Ev :=
  log.filter (fun e => (listenerOf e).isSome)

/-- The calls of the recognition hooks and the completion of the rendezvous
(`notify_all`, issued exactly when a call of `WaitForRecognition_Complete` finds the flag
set, clears it and stores its result). -/
def isMilestone : Ev → Bool
  | .StartRecognizing _ _ => true
  | .StopRecognizing _ => true
  | .notifyAll => true
  | _ => false

/-- The milestones of a trace, in order. -/
def milestones (log : List Ev) : List Ev :=
  log.filter isMilestone

/-- The references that the dispatches in flight have still to visit narrow when they
resolve. -/
def inflightCapable (s : CSpxSession) : Prop :=
  ∀ d ∈ s.inflight, ∀ items, d.remaining = some items →
    ∀ o ∈ items.filterMap (weakLock s.expired), o ∉ s.plain

/-- State `t` extends the trace of `s` by actions whose milestones are `ms`. -/
def advances (s t : CSpxSession) (ms : List Ev) : Prop :=
  ∃ d, t.log = s.log ++ d ∧ milestones d = ms

/-- State `t` has the registry, the heap and the identifier of `s`. -/
def sameWorld (s t : CSpxSession) : Prop :=
  t.m_recognizers = s.m_recognizers ∧ t.expired = s.expired ∧ t.plain = s.plain ∧
    t.m_sessionId = s.m_sessionId

/-- The actions performed between state `s` and a later state `t`. -/
def produced (s t : CSpxSession) : List Ev :=
  t.log.drop s.log.length

/-- Lock discipline of a trace: every access to the listener list happens while the
mutex is held (`held` is whether it is held at the start). -/
def guarded : Bool → List Ev → Bool
  | _, [] => true
  | _, .mutexLock :: es => guarded true es
  | _, .mutexUnlock :: es => guarded false es
  | held, .listRead :: es => held && guarded held es
  | held, .listWrite :: es => held && guarded held es
  | held, _ :: es => guarded held es

/-- Number of registrations of `x` in force after `ops`, starting from `n`: an add
counts one, a removal of `x` resets the count. -/
def registrations (x : ObjId) : Nat → List RegOp → Nat
  | n, [] => n
  | n, .add p :: ops => registrations x (if p = some x then n + 1 else n) ops
  | n, .remove p :: ops => registrations x (if p = some x then 0 else n) ops
  | n, .destroy _ :: ops => registrations x n ops

/-- The operations on the rendezvous. -/
inductive RendezvousOp
  | markWaiting
  | complete (result : Res)
  | ensure
  | wait (outcome : WaitOutcome)
  deriving DecidableEq, Repr

def stepRendezvous (factory : ResultType → Option Res) :
    RendezvousOp → CSpxSession → Except Fault CSpxSession
  | .markWaiting, s => .ok { s with m_recoAsyncWaiting := true }
  | .complete r, s => WaitForRecognition_Complete (some r) s
  | .ensure, s => EnsureFireResultEvent factory s
  | .wait outcome, s =>
    match WaitForRecognition factory outcome s with
    | .error f => .error f
    | .ok (s1, _) => .ok s1

def runRendezvous (factory : ResultType → Option Res) :
    List RendezvousOp → CSpxSession → Except Fault CSpxSession
  | [], s => .ok s
  | op :: ops, s =>
    match stepRendezvous factory op s with
    | .error f => .error f
    | .ok s1 => runRendezvous factory ops s1

/-! ## Example sessions -/

/-- A factory whose no-match result is present. -/
def demoFactory : ResultType → Option Res :=
  fun _ => some 99

/-- One capable live listener, an attempt outstanding, nothing stored. -/
def oneListener : CSpxSession :=
  { m_recognizers := [some 1], m_recoAsyncWaiting := true, m_recoAsyncResult := none,
    m_sessionId := 5, expired := [], plain := [], inflight := [], log := [] }

/-- The same listener registered twice, an attempt outstanding, nothing stored. -/
def twiceRegistered : CSpxSession :=
  { m_recognizers := [some 1, some 1], m_recoAsyncWaiting := true, m_recoAsyncResult := none,
    m_sessionId := 5, expired := [], plain := [], inflight := [], log := [] }

/-- One capable live listener, no attempt outstanding, a result stored. -/
def idleListener : CSpxSession :=
  { m_recognizers := [some 1], m_recoAsyncWaiting := false, m_recoAsyncResult := some 3,
    m_sessionId := 5, expired := [], plain := [], inflight := [], log := [] }

/-- Listener 1 added once, listener 2 added twice and then removed, listener 3 added and
then released by its owner. -/
def registryDemo : List RegOp :=
  [.add (some 1), .add (some 2), .add (some 2), .remove (some 2), .add (some 3), .destroy 3]

/-- Listener 2 is registered between the two snapshots of `FireSessionStoppedEvent`. -/
def lateRegistration : List RegOp :=
  [.add (some 2)]

/-- A registered reference whose target has been destroyed. -/
def expiredListener : CSpxSession :=
  { m_recognizers := [some 7], m_recoAsyncWaiting := false, m_recoAsyncResult := none,
    m_sessionId := 5, expired := [7], plain := [], inflight := [], log := [] }

/-- A live registered listener whose type does not implement `ISpxRecognizerEvents`. -/
def plainListener : CSpxSession :=
  { m_recognizers := [some 1], m_recoAsyncWaiting := false, m_recoAsyncResult := none,
    m_sessionId := 5, expired := [], plain := [1], inflight := [], log := [] }

/-! ## The dispatch loop -/

theorem forEachRecognizer_ok (fire : ObjId → Ev) (items : List (Option ObjId)) :
    ∀ s : CSpxSession,
      (∀ o ∈ items.filterMap (weakLock s.expired), o ∉ s.plain) →
      forEachRecognizer fire items s =
        .ok { s with log := s.log ++ (items.filterMap (weakLock s.expired)).map fire } := by
  induction items with
  | nil => intro s _; simp [forEachRecognizer]
  | cons item rest ih =>
    intro s h
    cases hl : weakLock s.expired item with
    | none =>
      have h1 : ∀ o ∈ rest.filterMap (weakLock s.expired), o ∉ s.plain := by
        intro o ho; apply h; simp [List.filterMap_cons, hl, ho]
      simp [forEachRecognizer, hl, ih s h1, List.filterMap_cons]
    | some o =>
      have ho : o ∉ s.plain := by apply h; simp [List.filterMap_cons, hl]
      have h1 : ∀ x ∈ rest.filterMap (weakLock (emit (fire o) s).expired),
          x ∉ (emit (fire o) s).plain := by
        intro x hx; apply h; simp only [emit] at hx; simp [List.filterMap_cons, hl, hx]
      simp only [forEachRecognizer, hl, dynamicPointerCast, ho, if_false]
      rw [ih _ h1]
      simp [List.filterMap_cons, hl, emit]

theorem forEachRecognizer_fault (fire : ObjId → Ev) (items : List (Option ObjId)) :
    ∀ s : CSpxSession,
      (∃ o ∈ items.filterMap (weakLock s.expired), o ∈ s.plain) →
      forEachRecognizer fire items s = .error .nullDeref := by
  induction items with
  | nil => intro s h; simp at h
  | cons item rest ih =>
    intro s h
    cases hl : weakLock s.expired item with
    | none =>
      have h1 : ∃ o ∈ rest.filterMap (weakLock s.expired), o ∈ s.plain := by
        simpa [List.filterMap_cons, hl] using h
      simp [forEachRecognizer, hl, ih s h1]
    | some o =>
      by_cases ho : o ∈ s.plain
      · simp [forEachRecognizer, hl, dynamicPointerCast, ho]
      · have h1 : ∃ x ∈ rest.filterMap (weakLock (emit (fire o) s).expired),
            x ∈ (emit (fire o) s).plain := by
          simp only [List.filterMap_cons, hl, List.mem_cons] at h
          obtain ⟨x, hx, hp⟩ := h
          rcases hx with hx | hx
          · subst hx; exact absurd hp ho
          · exact ⟨x, by simpa [emit] using hx, by simpa [emit] using hp⟩
        simp only [forEachRecognizer, hl, dynamicPointerCast, ho, if_false]
        exact ih _ h1

/-! ## What each operation does on a session whose listeners are capable -/

theorem FireSessionStartedEvent_ok (s : CSpxSession) (hC : eventsCapable s) :
    FireSessionStartedEvent s =
      .ok { s with log := s.log ++ [.mutexLock, .listRead, .mutexUnlock] ++
              (liveRecognizers s).map (fun p => Ev.FireSessionStarted p s.m_sessionId) } := by
  unfold FireSessionStartedEvent
  rw [forEachRecognizer_ok _ s.m_recognizers (snapshot s) hC]
  simp [snapshot, emit, liveRecognizers]

theorem FireResultEvent_ok (sessionId : SessionId) (result : Option Res) (s : CSpxSession)
    (hC : eventsCapable s) :
    FireResultEvent sessionId result s =
      .ok { s with log := s.log ++ [.mutexLock, .listRead, .mutexUnlock] ++
              (liveRecognizers s).map (fun p => Ev.FireResultEvent p sessionId result) } := by
  unfold FireResultEvent
  rw [forEachRecognizer_ok _ s.m_recognizers (snapshot s) hC]
  simp [snapshot, emit, liveRecognizers]

theorem Complete_waiting (result : Option Res) (s : CSpxSession)
    (hW : s.m_recoAsyncWaiting = true) (hC : eventsCapable s) :
    WaitForRecognition_Complete result s =
      .ok { s with
              m_recoAsyncWaiting := false
              m_recoAsyncResult := result
              log := s.log ++
                [.mutexLock, .notifyAll, .mutexUnlock, .mutexLock, .listRead, .mutexUnlock] ++
                (liveRecognizers s).map (fun p => Ev.FireResultEvent p s.m_sessionId result) } := by
  unfold WaitForRecognition_Complete completeLocked
  simp only [emit, hW, if_true]
  rw [FireResultEvent_ok _ _ { s with
        m_recoAsyncWaiting := false
        m_recoAsyncResult := result
        log := s.log ++ [.mutexLock] ++ [.notifyAll] ++ [.mutexUnlock] } hC]
  simp [GetSessionId, liveRecognizers]

theorem Complete_idle (result : Option Res) (s : CSpxSession)
    (hW : s.m_recoAsyncWaiting = false) (hC : eventsCapable s) :
    WaitForRecognition_Complete result s =
      .ok { s with
              log := s.log ++ [.mutexLock, .mutexUnlock, .mutexLock, .listRead, .mutexUnlock] ++
                (liveRecognizers s).map (fun p => Ev.FireResultEvent p s.m_sessionId result) } := by
  unfold WaitForRecognition_Complete completeLocked
  simp only [emit, hW, Bool.false_eq_true, if_false]
  rw [FireResultEvent_ok _ _ { s with
        m_recoAsyncWaiting := false
        log := s.log ++ [.mutexLock] ++ [.mutexUnlock] } hC]
  simp [GetSessionId, liveRecognizers]

theorem Ensure_waiting (factory : ResultType → Option Res) (s : CSpxSession)
    (hW : s.m_recoAsyncWaiting = true) (hC : eventsCapable s) :
    EnsureFireResultEvent factory s =
      .ok { s with
              m_recoAsyncWaiting := false
              m_recoAsyncResult := factory .Speech
              log := s.log ++
                [.CreateNoMatchResult .Speech, .mutexLock, .notifyAll, .mutexUnlock,
                  .mutexLock, .listRead, .mutexUnlock] ++
                (liveRecognizers s).map
                  (fun p => Ev.FireResultEvent p s.m_sessionId (factory .Speech)) } := by
  unfold EnsureFireResultEvent
  simp only [hW, if_true]
  rw [Complete_waiting _ (emit (.CreateNoMatchResult .Speech) s) hW hC]
  simp [emit, liveRecognizers]

theorem Ensure_idle (factory : ResultType → Option Res) (s : CSpxSession)
    (hW : s.m_recoAsyncWaiting = false) :
    EnsureFireResultEvent factory s = .ok s := by
  simp [EnsureFireResultEvent, hW]

/-! ## Traces -/

theorem received_append (l : ObjId) (a b : List Ev) :
    received l (a ++ b) = received l a ++ received l b := by
  simp [received]

theorem received_map (l : ObjId) (fire : ObjId → Ev)
    (hf : ∀ x, listenerOf (fire x) = some x) (xs : List ObjId) :
    received l (xs.map fire) = List.replicate (xs.count l) (fire l) := by
  induction xs with
  | nil => simp [received]
  | cons x xs ih =>
    unfold received at ih ⊢
    by_cases hx : x = l
    · subst hx
      simp [List.filter_cons, hf, ih, List.replicate_succ]
    · have hx2 : (x == l) = false := by simpa using hx
      simp [List.filter_cons, hf, ih, hx, List.count_cons, hx2]

theorem received_nil (l : ObjId) : received l [] = [] := rfl

theorem received_cons (l : ObjId) (e : Ev) (es : List Ev) :
    received l (e :: es) =
      if listenerOf e = some l then e :: received l es else received l es := by
  by_cases h : listenerOf e = some l <;> simp [received, List.filter_cons, h]

theorem received_map_result (l : ObjId) (sid : SessionId) (r : Option Res) (xs : List ObjId) :
    received l (xs.map (fun p => Ev.FireResultEvent p sid r)) =
      List.replicate (xs.count l) (Ev.FireResultEvent l sid r) :=
  received_map l (fun p => Ev.FireResultEvent p sid r) (fun _ => rfl) xs

theorem received_map_started (l : ObjId) (sid : SessionId) (xs : List ObjId) :
    received l (xs.map (fun p => Ev.FireSessionStarted p sid)) =
      List.replicate (xs.count l) (Ev.FireSessionStarted l sid) :=
  received_map l (fun p => Ev.FireSessionStarted p sid) (fun _ => rfl) xs

theorem received_map_stopped (l : ObjId) (sid : SessionId) (xs : List ObjId) :
    received l (xs.map (fun p => Ev.FireSessionStopped p sid)) =
      List.replicate (xs.count l) (Ev.FireSessionStopped l sid) :=
  received_map l (fun p => Ev.FireSessionStopped p sid) (fun _ => rfl) xs

/-! ## The timed wait -/

theorem WaitForRecognition_timeout_eq (factory : ResultType → Option Res) (s : CSpxSession)
    (hW : s.m_recoAsyncWaiting = true) (hR : s.m_recoAsyncResult = none)
    (hC : eventsCapable s) :
    WaitForRecognition factory .timeout s =
      .ok ({ s with
               m_recoAsyncWaiting := false
               m_recoAsyncResult := none
               log := s.log ++
                 [.mutexLock, .mutexUnlock, .mutexLock, .mutexUnlock,
                   .CreateNoMatchResult .Speech, .mutexLock, .notifyAll, .mutexUnlock,
                   .mutexLock, .listRead, .mutexUnlock] ++
                 (liveRecognizers s).map
                   (fun p => Ev.FireResultEvent p s.m_sessionId (factory .Speech)) ++
                 [.dbgAssert (decide (factory .Speech ≠ none))] },
           factory .Speech) := by
  unfold WaitForRecognition
  simp only [waitFor, emit, hW, Bool.not_true, Bool.false_eq_true, if_false, hR, if_true]
  rw [Ensure_waiting factory { s with
        m_recoAsyncWaiting := true
        m_recoAsyncResult := none
        log := s.log ++ [.mutexLock] ++ [.mutexUnlock] ++ [.mutexLock] ++ [.mutexUnlock] } rfl hC]
  simp [liveRecognizers]

theorem WaitForRecognition_idle (factory : ResultType → Option Res) (outcome : WaitOutcome)
    (s : CSpxSession) (hW : s.m_recoAsyncWaiting = false) :
    ∃ t, WaitForRecognition factory outcome s = .ok (t, s.m_recoAsyncResult) ∧
      t.m_recoAsyncWaiting = false ∧ t.m_recoAsyncResult = none ∧
      t.m_recognizers = s.m_recognizers ∧
      Ev.dbgAssert (decide (s.m_recoAsyncResult ≠ none)) ∈ produced s t := by
  unfold WaitForRecognition
  cases hR : s.m_recoAsyncResult with
  | none =>
    simp [waitFor, emit, hW, hR, EnsureFireResultEvent, produced]
  | some r =>
    simp [waitFor, emit, hW, hR, produced]

theorem registryDemo_capable : eventsCapable (runReg registryDemo (new 5 [] [])) := by
  decide

theorem oneListener_capable : eventsCapable oneListener := by
  decide

theorem idleListener_capable : eventsCapable idleListener := by
  decide

/-! ## Timeout fallback -/

/-- C1, as the code has it: for every session (with capable listeners) whose rendezvous is
waiting with no stored result, when the timed wait elapses with nothing delivered,
`WaitForRecognition` returns exactly the factory's `CreateNoMatchResult(Speech)`, the
waiting flag is false afterwards, and every listener receives one result event per live
registered reference to it, each carrying that no-match result (exactly one when it is
registered once, none when it is not registered or gone). -/
theorem WaitForRecognition_timeout_fallback (factory : ResultType → Option Res)
    (s : CSpxSession) (hW : s.m_recoAsyncWaiting = true) (hR : s.m_recoAsyncResult = none)
    (hC : eventsCapable s) :
    ∃ t, WaitForRecognition factory .timeout s = .ok (t, factory .Speech) ∧
      t.m_recoAsyncWaiting = false ∧
      ∀ l, received l (produced s t) =
        List.replicate ((liveRecognizers s).count l)
          (Ev.FireResultEvent l s.m_sessionId (factory .Speech)) := by
  refine ⟨_, WaitForRecognition_timeout_eq factory s hW hR hC, rfl, ?_⟩
  intro l
  simp [produced, received_append, received_cons, received_nil, received_map_result, listenerOf]

theorem WaitForRecognition_timeout_fallback_witness :
    oneListener.m_recoAsyncWaiting = true ∧ oneListener.m_recoAsyncResult = none ∧
    eventsCapable oneListener ∧
    ∃ t, WaitForRecognition demoFactory .timeout oneListener = .ok (t, demoFactory .Speech) ∧
      t.m_recoAsyncWaiting = false ∧
      ∀ l, received l (produced oneListener t) =
        List.replicate ((liveRecognizers oneListener).count l)
          (Ev.FireResultEvent l oneListener.m_sessionId (demoFactory .Speech)) :=
  ⟨rfl, rfl, oneListener_capable,
    WaitForRecognition_timeout_fallback demoFactory oneListener rfl rfl oneListener_capable⟩

/-- C1, as stated, fails: with listener 1 registered twice, the timed-out wait returns the
no-match result and listener 1 receives two result events, not exactly one. -/
theorem WaitForRecognition_timeout_twice_registered :
    (WaitForRecognition demoFactory .timeout twiceRegistered).toOption.map
        (fun out =>
          (out.2, out.1.m_recoAsyncWaiting, received 1 (produced twiceRegistered out.1))) =
      some (some 99, false,
        [Ev.FireResultEvent 1 5 (some 99), Ev.FireResultEvent 1 5 (some 99)]) := by
  decide

/-! ## Completion -/

/-- C3, as stated, fails: on a waiting session with the single live listener 1, after
`WaitForRecognition_Complete(10)` the flag is false, and the second call
`WaitForRecognition_Complete(20)` still dispatches a result event, so listener 1 receives
two result events for the attempt. -/
theorem Complete_second_call_dispatches :
    ((WaitForRecognition_Complete (some 10) oneListener).toOption.map
        (fun t1 => (t1.m_recoAsyncWaiting,
          (WaitForRecognition_Complete (some 20) t1).toOption.map
            (fun t2 => (received 1 (produced t1 t2), received 1 (produced oneListener t2)))))) =
      some (false, some ([Ev.FireResultEvent 1 5 (some 20)],
        [Ev.FireResultEvent 1 5 (some 10), Ev.FireResultEvent 1 5 (some 20)])) := by
  decide

/-- C4: first delivery wins on the rendezvous state.  On a session (capable listeners)
whose waiting flag is false, `WaitForRecognition_Complete(r)` returns and leaves the flag
and the stored result unchanged; starting from waiting, after `Complete(r1)` then
`Complete(r2)` the stored result is `r1`, and a later `WaitForRecognition` returns `r1`
(so neither is `r2` when the two differ). -/
theorem Complete_first_delivery_wins (factory : ResultType → Option Res) (s : CSpxSession)
    (hC : eventsCapable s) :
    (s.m_recoAsyncWaiting = false →
      ∀ r, ∃ t, WaitForRecognition_Complete r s = .ok t ∧
        t.m_recoAsyncWaiting = s.m_recoAsyncWaiting ∧
        t.m_recoAsyncResult = s.m_recoAsyncResult) ∧
    (s.m_recoAsyncWaiting = true →
      ∀ r1 r2 outcome, ∃ t1 t2 t3, WaitForRecognition_Complete r1 s = .ok t1 ∧
        WaitForRecognition_Complete r2 t1 = .ok t2 ∧
        t2.m_recoAsyncWaiting = false ∧ t2.m_recoAsyncResult = r1 ∧
        WaitForRecognition factory outcome t2 = .ok (t3, r1) ∧
        (r1 ≠ r2 → t2.m_recoAsyncResult ≠ r2)) := by
  constructor
  · intro hW r
    exact ⟨_, Complete_idle r s hW hC, rfl, rfl⟩
  · intro hW r1 r2 outcome
    obtain ⟨t3, h3, _⟩ := WaitForRecognition_idle factory outcome
      { s with
          m_recoAsyncWaiting := false
          m_recoAsyncResult := r1
          log := s.log ++
            [.mutexLock, .notifyAll, .mutexUnlock, .mutexLock, .listRead, .mutexUnlock] ++
            (liveRecognizers s).map (fun p => Ev.FireResultEvent p s.m_sessionId r1) ++
            [.mutexLock, .mutexUnlock, .mutexLock, .listRead, .mutexUnlock] ++
            (liveRecognizers s).map (fun p => Ev.FireResultEvent p s.m_sessionId r2) } rfl
    exact ⟨_, _, t3, Complete_waiting r1 s hW hC, Complete_idle r2 _ rfl hC, rfl, rfl, h3,
      fun h => h⟩

theorem Complete_first_delivery_wins_witness :
    eventsCapable idleListener ∧ eventsCapable oneListener ∧
    (∃ t, WaitForRecognition_Complete (some 20) idleListener = .ok t ∧
        t.m_recoAsyncWaiting = idleListener.m_recoAsyncWaiting ∧
        t.m_recoAsyncResult = idleListener.m_recoAsyncResult) ∧
    (∃ t1 t2 t3, WaitForRecognition_Complete (some 10) oneListener = .ok t1 ∧
        WaitForRecognition_Complete (some 20) t1 = .ok t2 ∧
        t2.m_recoAsyncWaiting = false ∧ t2.m_recoAsyncResult = some 10 ∧
        WaitForRecognition demoFactory .timeout t2 = .ok (t3, some 10) ∧
        (some 10 ≠ some 20 → t2.m_recoAsyncResult ≠ some 20)) :=
  ⟨idleListener_capable, oneListener_capable,
    (Complete_first_delivery_wins demoFactory idleListener idleListener_capable).1 rfl (some 20),
    (Complete_first_delivery_wins demoFactory oneListener oneListener_capable).2 rfl
      (some 10) (some 20) .timeout⟩

/-! ## The assertion in WaitForRecognition -/

/-- C5 fails on the code: with a factory whose no-match result is present, on a fresh
session `WaitForRecognition` returns `nullptr` with its assertion false; and after an
attempt is marked, completed with the present result 7 and waited for (that wait returns
7 and moves it out), a further `WaitForRecognition` returns `nullptr` with the assertion
false. -/
theorem WaitForRecognition_returns_absent :
    (WaitForRecognition demoFactory .timeout (new 5 [] [])).toOption.map
        (fun out => (out.2, decide (Ev.dbgAssert false ∈ produced (new 5 [] []) out.1))) =
      some (none, true) ∧
    ((runRendezvous demoFactory [.markWaiting, .complete 7] (new 5 [] [])).toOption.bind
        (fun s1 => (WaitForRecognition demoFactory .timeout s1).toOption.bind
          (fun first => (WaitForRecognition demoFactory .timeout first.1).toOption.map
            (fun out => (first.2, out.2,
              decide (Ev.dbgAssert false ∈ produced first.1 out.1)))))) =
      some (some 7, none, true) := by
  decide

/-! ## Removal -/

theorem weakLock_expired {expired : List ObjId} {o : ObjId} (h : o ∈ expired) :
    weakLock expired (some o) = none := by
  simp [weakLock, h]

theorem weakLock_live {expired : List ObjId} {o : ObjId} (h : o ∉ expired) :
    weakLock expired (some o) = some o := by
  simp [weakLock, h]

/-- C6, as the code has it: `RemoveRecognizer(p)` removes exactly the references whose
resolution `lock().get()` equals `p`.  A reference to a live target is removed by that
target's pointer value; a reference whose target has been destroyed resolves to `nullptr`,
so it stays registered under every non-null argument, its own target's pointer value
included, and is removed by `RemoveRecognizer(nullptr)`. -/
theorem RemoveRecognizer_matches_resolved (s : CSpxSession) (p : Option ObjId) :
    (RemoveRecognizer p s).m_recognizers =
        s.m_recognizers.filter (fun item => decide (weakLock s.expired item ≠ p)) ∧
    (∀ o, o ∉ s.expired → some o ∉ (RemoveRecognizer (some o) s).m_recognizers) ∧
    (∀ o q, o ∈ s.expired →
      (RemoveRecognizer (some q) s).m_recognizers.count (some o) =
        s.m_recognizers.count (some o)) ∧
    (∀ o, o ∈ s.expired → some o ∉ (RemoveRecognizer none s).m_recognizers) := by
  refine ⟨?_, ?_, ?_, ?_⟩
  · simp [RemoveRecognizer, emit]
  · intro o ho
    simp [RemoveRecognizer, emit, List.mem_filter, weakLock_live ho]
  · intro o q ho
    simp only [RemoveRecognizer, emit]
    apply List.count_filter
    simp [weakLock_expired ho]
  · intro o ho
    simp [RemoveRecognizer, emit, List.mem_filter, weakLock_expired ho]

theorem RemoveRecognizer_matches_resolved_witness :
    (7 ∈ expiredListener.expired ∧ 1 ∉ oneListener.expired) ∧
    (RemoveRecognizer (some 7) expiredListener).m_recognizers.count (some 7) =
        expiredListener.m_recognizers.count (some 7) ∧
    some 7 ∉ (RemoveRecognizer none expiredListener).m_recognizers ∧
    some 1 ∉ (RemoveRecognizer (some 1) oneListener).m_recognizers :=
  ⟨by decide,
    (RemoveRecognizer_matches_resolved expiredListener none).2.2.1 7 7 (by decide),
    (RemoveRecognizer_matches_resolved expiredListener none).2.2.2 7 (by decide),
    (RemoveRecognizer_matches_resolved oneListener none).2.1 1 (by decide)⟩

/-- C6, as stated, fails: listener 7 is registered and its target has been destroyed;
`RemoveRecognizer` called with the pointer value 7 leaves the reference in the list. -/
theorem RemoveRecognizer_keeps_expired :
    7 ∈ expiredListener.expired ∧
    (RemoveRecognizer (some 7) expiredListener).m_recognizers = [some 7] := by
  decide

/-! ## Lock discipline -/

/-- C9 fails on the code: the mutations of the listener list made by `AddRecognizer` and
`RemoveRecognizer` are the only action of those functions and happen without the mutex
held, while the snapshot copy of the dispatchers is taken under it. -/
theorem registry_mutations_unguarded (s : CSpxSession) (p : Option ObjId) :
    produced s (AddRecognizer p s) = [.listWrite] ∧
    produced s (RemoveRecognizer p s) = [.listWrite] ∧
    guarded false (produced s (AddRecognizer p s)) = false ∧
    guarded false (produced s (RemoveRecognizer p s)) = false ∧
    produced s (snapshot s) = [.mutexLock, .listRead, .mutexUnlock] ∧
    guarded false (produced s (snapshot s)) = true := by
  have h1 : produced s (AddRecognizer p s) = [.listWrite] := by
    simp [produced, AddRecognizer, emit]
  have h2 : produced s (RemoveRecognizer p s) = [.listWrite] := by
    simp [produced, RemoveRecognizer, emit]
  have h3 : produced s (snapshot s) = [.mutexLock, .listRead, .mutexUnlock] := by
    simp [produced, snapshot, emit]
  refine ⟨h1, h2, ?_, ?_, h3, ?_⟩
  · rw [h1]; rfl
  · rw [h2]; rfl
  · rw [h3]; rfl

/-! ## Dispatch over a listener that does not narrow -/

/-- C10 fails on the code: when some registered reference resolves to a live object that
does not narrow to `ISpxRecognizerEvents`, each of the three dispatchers calls through
the null narrowed pointer instead of skipping the reference. -/
theorem dispatch_faults_on_plain_listener (factory : ResultType → Option Res)
    (s : CSpxSession) (h : ∃ o ∈ liveRecognizers s, o ∈ s.plain) :
    FireSessionStartedEvent s = .error .nullDeref ∧
    FireSessionStoppedEvent factory [] s = .error .nullDeref ∧
    ∀ sessionId result, FireResultEvent sessionId result s = .error .nullDeref := by
  have hR : ∀ (u : CSpxSession), u.m_recognizers = s.m_recognizers → u.expired = s.expired →
      u.plain = s.plain → ∀ sessionId result,
      FireResultEvent sessionId result u = .error .nullDeref := by
    intro u h1 h2 h3 sessionId result
    unfold FireResultEvent
    apply forEachRecognizer_fault
    simpa [snapshot, emit, liveRecognizers, h1, h2, h3] using h
  refine ⟨?_, ?_, hR s rfl rfl rfl⟩
  · unfold FireSessionStartedEvent
    apply forEachRecognizer_fault
    simpa [snapshot, emit, liveRecognizers] using h
  · unfold FireSessionStoppedEvent
    cases hW : s.m_recoAsyncWaiting with
    | false =>
      rw [Ensure_idle factory s hW]
      simp only []
      apply forEachRecognizer_fault
      simpa [snapshot, emit, liveRecognizers] using h
    | true =>
      have hE : EnsureFireResultEvent factory s = .error .nullDeref := by
        unfold EnsureFireResultEvent WaitForRecognition_Complete completeLocked
        simp only [hW, if_true, emit]
        apply hR <;> rfl
      rw [hE]

theorem dispatch_faults_on_plain_listener_witness :
    (∃ o ∈ liveRecognizers plainListener, o ∈ plainListener.plain) ∧
    FireSessionStartedEvent plainListener = .error .nullDeref ∧
    FireSessionStoppedEvent demoFactory [] plainListener = .error .nullDeref ∧
    ∀ sessionId result, FireResultEvent sessionId result plainListener = .error .nullDeref :=
  ⟨⟨1, by decide, by decide⟩,
    dispatch_faults_on_plain_listener demoFactory plainListener ⟨1, by decide, by decide⟩⟩

/-! ## Registration and dispatch -/

theorem count_live (expired : List ObjId) (x : ObjId) (items : List (Option ObjId)) :
    (items.filterMap (weakLock expired)).count x =
      if x ∈ expired then 0 else items.count (some x) := by
  induction items with
  | nil => simp
  | cons item rest ih =>
    cases item with
    | none =>
      simp only [List.filterMap_cons, weakLock, ih]
      by_cases hx : x ∈ expired <;> simp [hx, List.count_cons]
    | some o =>
      by_cases ho : o ∈ expired
      · simp only [List.filterMap_cons, weakLock, ho, if_true, ih]
        by_cases hx : x ∈ expired
        · simp [hx]
        · have hne : o ≠ x := fun h => hx (h ▸ ho)
          simp [hx, List.count_cons, hne]
      · simp only [List.filterMap_cons, weakLock, ho, if_false, List.count_cons, ih]
        by_cases hx : x ∈ expired
        · have hne : o ≠ x := fun h => ho (h ▸ hx)
          simp [hx, hne]
        · simp [hx]

theorem runReg_sessionId (ops : List RegOp) :
    ∀ s : CSpxSession, (runReg ops s).m_sessionId = s.m_sessionId := by
  induction ops with
  | nil => intro s; rfl
  | cons op ops ih =>
    intro s
    rw [runReg, ih]
    cases op <;> rfl

theorem runReg_expired_mono (x : ObjId) (ops : List RegOp) :
    ∀ s : CSpxSession, x ∈ s.expired → x ∈ (runReg ops s).expired := by
  induction ops with
  | nil => intro s h; exact h
  | cons op ops ih =>
    intro s h
    rw [runReg]
    apply ih
    cases op with
    | add p => exact h
    | remove p => exact h
    | destroy o => exact List.mem_cons_of_mem _ h

theorem count_runReg (x : ObjId) (ops : List RegOp) :
    ∀ s : CSpxSession, x ∉ (runReg ops s).expired →
      (runReg ops s).m_recognizers.count (some x) =
        registrations x (s.m_recognizers.count (some x)) ops := by
  induction ops with
  | nil => intro s _; rfl
  | cons op ops ih =>
    intro s hx
    rw [runReg] at hx ⊢
    have hx1 : x ∉ (stepReg op s).expired := fun h => hx (runReg_expired_mono x ops _ h)
    rw [ih _ hx]
    cases op with
    | add p =>
      simp only [registrations, stepReg, AddRecognizer, emit, List.count_append]
      by_cases hp : p = some x
      · subst hp; simp
      · have hp2 : (p == some x) = false := by simpa using hp
        simp [hp, List.count_cons, hp2]
    | remove p =>
      have hx0 : x ∉ s.expired := hx1
      simp only [registrations, stepReg, RemoveRecognizer, emit]
      by_cases hp : p = some x
      · subst hp
        have h0 : (s.m_recognizers.filter
            (fun item => !decide (weakLock s.expired item = some x))).count (some x) = 0 := by
          rw [List.count_eq_zero]
          simp [List.mem_filter, weakLock_live hx0]
        simp [h0]
      · have h1 : (s.m_recognizers.filter
            (fun item => !decide (weakLock s.expired item = p))).count (some x) =
            s.m_recognizers.count (some x) := by
          apply List.count_filter
          simp only [weakLock_live hx0, Bool.not_eq_true', decide_eq_false_iff_not]
          exact fun h => hp h.symm
        simp [h1, hp]
    | destroy o =>
      simp only [registrations, stepReg]

theorem registrations_append (x : ObjId) (pre : List RegOp) :
    ∀ (n : Nat) (post : List RegOp),
      registrations x n (pre ++ post) = registrations x (registrations x n pre) post := by
  induction pre with
  | nil => intro n post; rfl
  | cons op pre ih =>
    intro n post
    cases op <;> simp [registrations, ih]

theorem registrations_zero (x : ObjId) (post : List RegOp) (h : RegOp.add (some x) ∉ post) :
    registrations x 0 post = 0 := by
  induction post with
  | nil => rfl
  | cons op post ih =>
    have h1 : RegOp.add (some x) ∉ post := fun hm => h (List.mem_cons_of_mem _ hm)
    cases op with
    | add p =>
      have hp : p ≠ some x := by
        intro hp; subst hp; exact h (List.mem_cons_self _ _)
      simp [registrations, hp, ih h1]
    | remove p =>
      by_cases hp : p = some x <;> simp [registrations, hp, ih h1]
    | destroy o => simp [registrations, ih h1]

theorem registrations_removed (x : ObjId) (n : Nat) (pre post : List RegOp)
    (h : RegOp.add (some x) ∉ post) :
    registrations x n (pre ++ RegOp.remove (some x) :: post) = 0 := by
  rw [registrations_append]
  simp [registrations, registrations_zero x post h]

/-- C7, as the code has it: after any sequence of `AddRecognizer`/`RemoveRecognizer`
calls (and releases of listeners by their owners) on a fresh session whose live
registered listeners are capable, `FireSessionStartedEvent` invokes `FireSessionStarted`
with the session id on each listener once per registration in force: not at all when its
target is gone, otherwise as many times as it was added since its last removal (exactly
once when added once, twice when added twice); and zero times on every listener removed
and not added again before the dispatch, however often it had been added. -/
theorem FireSessionStartedEvent_roundtrip (ops : List RegOp) (guid : SessionId)
    (expired plain : List ObjId)
    (hC : eventsCapable (runReg ops (new guid expired plain))) :
    ∃ t, FireSessionStartedEvent (runReg ops (new guid expired plain)) = .ok t ∧
      ∀ l,
        received l (produced (runReg ops (new guid expired plain)) t) =
          List.replicate
            (if l ∈ (runReg ops (new guid expired plain)).expired then 0
              else registrations l 0 ops)
            (Ev.FireSessionStarted l guid) ∧
        (∀ pre post, ops = pre ++ RegOp.remove (some l) :: post →
          RegOp.add (some l) ∉ post →
          received l (produced (runReg ops (new guid expired plain)) t) = []) := by
  refine ⟨_, FireSessionStartedEvent_ok _ hC, ?_⟩
  intro l
  have hcount : (liveRecognizers (runReg ops (new guid expired plain))).count l =
      if l ∈ (runReg ops (new guid expired plain)).expired then 0
        else registrations l 0 ops := by
    unfold liveRecognizers
    rw [count_live]
    by_cases hl : l ∈ (runReg ops (new guid expired plain)).expired
    · simp [hl]
    · simp only [hl, if_false]
      rw [count_runReg l ops _ hl]
      simp [new]
  have hrec : received l (produced (runReg ops (new guid expired plain))
      { runReg ops (new guid expired plain) with
          log := (runReg ops (new guid expired plain)).log ++
            [.mutexLock, .listRead, .mutexUnlock] ++
            (liveRecognizers (runReg ops (new guid expired plain))).map
              (fun p => Ev.FireSessionStarted p
                (runReg ops (new guid expired plain)).m_sessionId) }) =
      List.replicate
        (if l ∈ (runReg ops (new guid expired plain)).expired then 0
          else registrations l 0 ops)
        (Ev.FireSessionStarted l guid) := by
    rw [← hcount, runReg_sessionId]
    simp [produced, received_append, received_cons, received_nil, received_map_started,
      listenerOf, new]
  refine ⟨hrec, ?_⟩
  intro pre post hops hpost
  rw [hrec]
  have hz : registrations l 0 ops = 0 := by
    rw [hops]; exact registrations_removed l 0 pre post hpost
  simp [hz]

theorem FireSessionStartedEvent_roundtrip_witness :
    eventsCapable (runReg registryDemo (new 5 [] [])) ∧
    ∃ t, FireSessionStartedEvent (runReg registryDemo (new 5 [] [])) = .ok t ∧
      ∀ l,
        received l (produced (runReg registryDemo (new 5 [] [])) t) =
          List.replicate
            (if l ∈ (runReg registryDemo (new 5 [] [])).expired then 0
              else registrations l 0 registryDemo)
            (Ev.FireSessionStarted l 5) ∧
        (∀ pre post, registryDemo = pre ++ RegOp.remove (some l) :: post →
          RegOp.add (some l) ∉ post →
          received l (produced (runReg registryDemo (new 5 [] [])) t) = []) :=
  ⟨registryDemo_capable,
    FireSessionStartedEvent_roundtrip registryDemo 5 [] [] registryDemo_capable⟩

/-- C7, as stated, fails: after `AddRecognizer(1); AddRecognizer(1)` on a fresh session
one distinct live listener is registered, and `FireSessionStartedEvent` invokes
`FireSessionStarted` on it twice, not exactly once. -/
theorem FireSessionStartedEvent_twice_added :
    (liveRecognizers (runReg [.add (some 1), .add (some 1)] (new 5 [] []))).dedup = [1] ∧
    (FireSessionStartedEvent (runReg [.add (some 1), .add (some 1)] (new 5 [] []))).toOption.map
        (fun t => received 1 (produced (runReg [.add (some 1), .add (some 1)] (new 5 [] [])) t)) =
      some [Ev.FireSessionStarted 1 5, Ev.FireSessionStarted 1 5] := by
  decide

/-! ## Dispatches in flight -/

theorem advances_refl (s : CSpxSession) : advances s s [] :=
  ⟨[], by simp, rfl⟩

theorem advances_trans {s t u : CSpxSession} {m1 m2 : List Ev}
    (h1 : advances s t m1) (h2 : advances t u m2) : advances s u (m1 ++ m2) := by
  obtain ⟨d1, e1, f1⟩ := h1
  obtain ⟨d2, e2, f2⟩ := h2
  refine ⟨d1 ++ d2, by rw [e2, e1, List.append_assoc], ?_⟩
  simp [milestones, List.filter_append] at f1 f2 ⊢
  rw [f1, f2]

theorem advances_produced {s t : CSpxSession} {ms : List Ev} (h : advances s t ms) :
    milestones (produced s t) = ms := by
  obtain ⟨d, e, f⟩ := h
  simp [produced, e, f]

theorem advances_emit (e : Ev) (s : CSpxSession) :
    advances s (emit e s) (milestones [e]) :=
  ⟨[e], rfl, rfl⟩

theorem sameWorld_refl (s : CSpxSession) : sameWorld s s :=
  ⟨rfl, rfl, rfl, rfl⟩

theorem sameWorld_trans {s t u : CSpxSession} (h1 : sameWorld s t) (h2 : sameWorld t u) :
    sameWorld s u :=
  ⟨h2.1.trans h1.1, h2.2.1.trans h1.2.1, h2.2.2.1.trans h1.2.2.1, h2.2.2.2.trans h1.2.2.2⟩

theorem eventsCapable_of_sameWorld {s t : CSpxSession} (h : sameWorld s t)
    (hC : eventsCapable s) : eventsCapable t := by
  unfold eventsCapable liveRecognizers at *
  rw [h.1, h.2.1, h.2.2.1]
  exact hC

theorem dispatchStep_quiet (s : CSpxSession) (hC : eventsCapable s)
    (hI : inflightCapable s) :
    ∃ t, dispatchStep s = .ok t ∧ sameWorld s t ∧
      t.m_recoAsyncWaiting = s.m_recoAsyncWaiting ∧
      t.m_recoAsyncResult = s.m_recoAsyncResult ∧ advances s t [] ∧ inflightCapable t := by
  unfold dispatchStep
  cases hin : s.inflight with
  | nil => exact ⟨s, rfl, sameWorld_refl s, rfl, rfl, advances_refl s, hI⟩
  | cons d ds =>
    have hd : ∀ items, d.remaining = some items →
        ∀ o ∈ items.filterMap (weakLock s.expired), o ∉ s.plain :=
      hI d (by rw [hin]; exact List.mem_cons_self _ _)
    have hds : ∀ d1 ∈ ds, ∀ items, d1.remaining = some items →
        ∀ o ∈ items.filterMap (weakLock s.expired), o ∉ s.plain :=
      fun d1 h1 => hI d1 (by rw [hin]; exact List.mem_cons_of_mem _ h1)
    dsimp only
    cases hr : d.remaining with
    | none =>
      dsimp only
      refine ⟨_, rfl, ⟨rfl, rfl, rfl, rfl⟩, rfl, rfl,
        ⟨[.mutexLock, .listRead, .mutexUnlock], by simp [snapshot, emit], rfl⟩, ?_⟩
      intro d1 h1 items hi
      simp only [List.mem_cons] at h1
      rcases h1 with h1 | h1
      · subst h1
        simp only [Option.some.injEq] at hi
        subst hi
        exact hC
      · exact hds d1 h1 items hi
    | some items =>
      cases items with
      | nil =>
        dsimp only
        exact ⟨_, rfl, ⟨rfl, rfl, rfl, rfl⟩, rfl, rfl, ⟨[], by simp, rfl⟩,
          fun d1 h1 => hds d1 h1⟩
      | cons item rest =>
        dsimp only
        have hrest : ∀ o ∈ rest.filterMap (weakLock s.expired), o ∉ s.plain := by
          intro o ho
          apply hd _ hr
          rw [List.filterMap_cons]
          cases weakLock s.expired item with
          | none => exact ho
          | some x => exact List.mem_cons_of_mem _ ho
        have hnext : ∀ d1 ∈ ({ d with remaining := some rest } :: ds), ∀ items,
            d1.remaining = some items →
            ∀ o ∈ items.filterMap (weakLock s.expired), o ∉ s.plain := by
          intro d1 h1 items hi
          simp only [List.mem_cons] at h1
          rcases h1 with h1 | h1
          · subst h1
            simp only [Option.some.injEq] at hi
            subst hi
            exact hrest
          · exact hds d1 h1 items hi
        cases hl : weakLock s.expired item with
        | none =>
          dsimp only
          exact ⟨_, rfl, ⟨rfl, rfl, rfl, rfl⟩, rfl, rfl, ⟨[], by simp, rfl⟩, hnext⟩
        | some o =>
          have ho : o ∉ s.plain := by
            apply hd _ hr
            simp [List.filterMap_cons, hl]
          simp only [dynamicPointerCast, ho, if_false]
          exact ⟨_, rfl, ⟨rfl, rfl, rfl, rfl⟩, rfl, rfl,
            ⟨[.FireResultEvent o d.sessionId d.result], by simp [emit], rfl⟩, hnext⟩

theorem envRun_dispatch_quiet (k : Nat) :
    ∀ s : CSpxSession, eventsCapable s → inflightCapable s →
      ∃ t, envRun (List.replicate k .dispatch) s = .ok t ∧ sameWorld s t ∧
        t.m_recoAsyncWaiting = s.m_recoAsyncWaiting ∧
        t.m_recoAsyncResult = s.m_recoAsyncResult ∧ advances s t [] ∧ inflightCapable t := by
  induction k with
  | zero =>
    intro s _ hI
    exact ⟨s, rfl, sameWorld_refl s, rfl, rfl, advances_refl s, hI⟩
  | succ k ih =>
    intro s hC hI
    obtain ⟨t1, e1, w1, f1, r1, a1, i1⟩ := dispatchStep_quiet s hC hI
    obtain ⟨t2, e2, w2, f2, r2, a2, i2⟩ := ih t1 (eventsCapable_of_sameWorld w1 hC) i1
    refine ⟨t2, ?_, sameWorld_trans w1 w2, f2.trans f1, r2.trans r1, ?_, i2⟩
    · simp only [List.replicate_succ, envRun, e1, e2]
    · simpa using advances_trans a1 a2

theorem deliver_waiting (result : Option Res) (s : CSpxSession)
    (hW : s.m_recoAsyncWaiting = true) :
    deliver result s =
      { s with
          m_recoAsyncWaiting := false
          m_recoAsyncResult := result
          inflight := s.inflight ++
            [{ sessionId := s.m_sessionId, result := result, remaining := none }]
          log := s.log ++ [.mutexLock, .notifyAll, .mutexUnlock] } := by
  simp [deliver, completeLocked, emit, hW, GetSessionId]

theorem inflightCapable_deliver (result : Option Res) (s : CSpxSession)
    (hI : inflightCapable s) : inflightCapable (deliver result s) := by
  have h1 : (deliver result s).inflight = s.inflight ++
      [{ sessionId := s.m_sessionId, result := result, remaining := none }] := by
    unfold deliver completeLocked
    by_cases hW : s.m_recoAsyncWaiting = true <;> simp [emit, hW, GetSessionId]
  have h2 : (deliver result s).expired = s.expired := by
    unfold deliver completeLocked
    by_cases hW : s.m_recoAsyncWaiting = true <;> simp [emit, hW]
  have h3 : (deliver result s).plain = s.plain := by
    unfold deliver completeLocked
    by_cases hW : s.m_recoAsyncWaiting = true <;> simp [emit, hW]
  intro d hd items hi
  rw [h1, List.mem_append] at hd
  rw [h2, h3]
  rcases hd with hd | hd
  · exact hI d hd items hi
  · simp only [List.mem_singleton] at hd
    subst hd
    cases hi

theorem inflightCapable_congr {s t : CSpxSession} (h1 : t.inflight = s.inflight)
    (h2 : t.expired = s.expired) (h3 : t.plain = s.plain) (hI : inflightCapable s) :
    inflightCapable t := by
  unfold inflightCapable at *
  rw [h1, h2, h3]
  exact hI

theorem WaitForRecognition_ready (factory : ResultType → Option Res) (outcome : WaitOutcome)
    (s : CSpxSession) (R : Res) (hW : s.m_recoAsyncWaiting = false)
    (hR : s.m_recoAsyncResult = some R) :
    WaitForRecognition factory outcome s =
      .ok ({ s with
               m_recoAsyncResult := none
               log := s.log ++ [.mutexLock, .dbgAssert true, .mutexUnlock] }, some R) := by
  simp [WaitForRecognition, waitFor, emit, hW, hR]

theorem WaitForRecognition_delivered (factory : ResultType → Option Res) (s : CSpxSession)
    (R : Res) (a : Nat) (hW : s.m_recoAsyncWaiting = true) (hC : eventsCapable s)
    (hI : inflightCapable s) :
    ∃ t, WaitForRecognition factory (.delivered (some R) a) s = .ok (t, some R) ∧
      sameWorld s t ∧ t.m_recoAsyncWaiting = false ∧ t.m_recoAsyncResult = none ∧
      advances s t [.notifyAll] ∧ inflightCapable t := by
  have hW1 : (emit .mutexUnlock (emit .mutexLock s)).m_recoAsyncWaiting = true := hW
  have hu := deliver_waiting (some R) (emit .mutexUnlock (emit .mutexLock s)) hW1
  have hIu : inflightCapable (deliver (some R) (emit .mutexUnlock (emit .mutexLock s))) :=
    inflightCapable_deliver _ _ (inflightCapable_congr rfl rfl rfl hI)
  have hWu : sameWorld s (deliver (some R) (emit .mutexUnlock (emit .mutexLock s))) := by
    rw [hu]; exact ⟨rfl, rfl, rfl, rfl⟩
  obtain ⟨ta, ea, wa, fa, ra, aa, ia⟩ :=
    envRun_dispatch_quiet a _ (eventsCapable_of_sameWorld hWu hC) hIu
  have key : envRun (.deliver (some R) :: List.replicate a .dispatch)
      (emit .mutexUnlock (emit .mutexLock s)) = .ok ta := ea
  have hra : ta.m_recoAsyncResult = some R := by rw [ra, hu]
  have hfa : ta.m_recoAsyncWaiting = false := by rw [fa, hu]
  have hadv : advances s ta [.notifyAll] := by
    have h0 : advances s (deliver (some R) (emit .mutexUnlock (emit .mutexLock s)))
        [.notifyAll] := by
      rw [hu]
      exact ⟨[.mutexLock, .mutexUnlock, .mutexLock, .notifyAll, .mutexUnlock],
        by simp [emit], rfl⟩
    simpa using advances_trans h0 aa
  have hw0 : (emit .mutexLock s).m_recoAsyncWaiting = true := hW
  refine ⟨emit .mutexUnlock
      { emit (.dbgAssert true) (emit .mutexLock ta) with m_recoAsyncResult := none },
    ?_, sameWorld_trans hWu wa, hfa, rfl, ?_, inflightCapable_congr rfl rfl rfl ia⟩
  · unfold WaitForRecognition waitFor
    simp only [hw0, Bool.not_true, Bool.false_eq_true, if_false, key]
    have hne : (emit .mutexLock ta).m_recoAsyncResult = some R := hra
    simp [hne]
    exact hra
  · have h1 : advances ta (emit .mutexUnlock
        { emit (.dbgAssert true) (emit .mutexLock ta) with m_recoAsyncResult := none }) [] :=
      ⟨[.mutexLock, .dbgAssert true, .mutexUnlock], by simp [emit], rfl⟩
    simpa using advances_trans hadv h1

theorem inflightCapable_of_nil {s : CSpxSession} (h : s.inflight = []) :
    inflightCapable s := by
  intro d hd
  rw [h] at hd
  cases hd

theorem stop_phase (b c : Nat) (s4 : CSpxSession) (hC : eventsCapable s4)
    (hI : inflightCapable s4) :
    ∃ s5 s6, envRun (List.replicate b .dispatch) s4 = .ok s5 ∧
      envRun (List.replicate c .dispatch) (StopRecognizing .SingleShot s5) = .ok s6 ∧
      advances s4 s6 [.StopRecognizing .SingleShot] := by
  obtain ⟨s5, e5, w5, _, _, a5, i5⟩ := envRun_dispatch_quiet b s4 hC hI
  have hC5 : eventsCapable (StopRecognizing .SingleShot s5) :=
    eventsCapable_of_sameWorld (s := s4) ⟨w5.1, w5.2.1, w5.2.2.1, w5.2.2.2⟩ hC
  have hI5 : inflightCapable (StopRecognizing .SingleShot s5) :=
    inflightCapable_congr rfl rfl rfl i5
  obtain ⟨s6, e6, _, _, _, a6, _⟩ := envRun_dispatch_quiet c _ hC5 hI5
  refine ⟨s5, s6, e5, e6, ?_⟩
  have hstop : advances s5 (StopRecognizing .SingleShot s5) [.StopRecognizing .SingleShot] :=
    advances_emit _ s5
  simpa using advances_trans a5 (advances_trans hstop a6)

theorem task_delivered_during_wait (factory : ResultType → Option Res) (s : CSpxSession)
    (R : Res) (a b c : Nat) (hC : eventsCapable s) (hI : s.inflight = []) :
    ∃ t, RecognizeAsync_task factory
        { beforeStart := [], duringStart := [], wait := .delivered (some R) a,
          beforeStop := List.replicate b .dispatch,
          duringStop := List.replicate c .dispatch } s = .ok (t, some R) ∧
      advances s t [.StartRecognizing .SingleShot [], .notifyAll, .StopRecognizing .SingleShot] := by
  have hC2 : eventsCapable (StartRecognizing .SingleShot [] { s with m_recoAsyncWaiting := true }) :=
    eventsCapable_of_sameWorld (s := s) ⟨rfl, rfl, rfl, rfl⟩ hC
  have hI2 : inflightCapable
      (StartRecognizing .SingleShot [] { s with m_recoAsyncWaiting := true }) :=
    inflightCapable_of_nil hI
  obtain ⟨t4, e4, w4, _, _, a4, i4⟩ :=
    WaitForRecognition_delivered factory _ R a rfl hC2 hI2
  obtain ⟨s5, s6, e5, e6, a6⟩ := stop_phase b c t4 (eventsCapable_of_sameWorld w4 hC2) i4
  refine ⟨s6, ?_, ?_⟩
  · simp only [RecognizeAsync_task, envRun, e4, e5, e6]
  · have h0 : advances s (StartRecognizing .SingleShot [] { s with m_recoAsyncWaiting := true })
        [.StartRecognizing .SingleShot []] := ⟨[.StartRecognizing .SingleShot []], rfl, rfl⟩
    simpa using advances_trans h0 (advances_trans a4 a6)

theorem task_delivered_during_start (factory : ResultType → Option Res) (s : CSpxSession)
    (R : Res) (a b c : Nat) (w : WaitOutcome) (hC : eventsCapable s) (hI : s.inflight = []) :
    ∃ t, RecognizeAsync_task factory
        { beforeStart := [], duringStart := .deliver (some R) :: List.replicate a .dispatch,
          wait := w, beforeStop := List.replicate b .dispatch,
          duringStop := List.replicate c .dispatch } s = .ok (t, some R) ∧
      advances s t [.StartRecognizing .SingleShot [], .notifyAll, .StopRecognizing .SingleShot] := by
  have hu := deliver_waiting (some R)
    (StartRecognizing .SingleShot [] { s with m_recoAsyncWaiting := true }) rfl
  have hWu : sameWorld s (deliver (some R)
      (StartRecognizing .SingleShot [] { s with m_recoAsyncWaiting := true })) := by
    rw [hu]; exact ⟨rfl, rfl, rfl, rfl⟩
  have hIu : inflightCapable (deliver (some R)
      (StartRecognizing .SingleShot [] { s with m_recoAsyncWaiting := true })) :=
    inflightCapable_deliver _ _ (inflightCapable_of_nil hI)
  obtain ⟨t3, e3, w3, f3, r3, a3, i3⟩ :=
    envRun_dispatch_quiet a _ (eventsCapable_of_sameWorld hWu hC) hIu
  have hf3 : t3.m_recoAsyncWaiting = false := by rw [f3, hu]
  have hr3 : t3.m_recoAsyncResult = some R := by rw [r3, hu]
  have e4 := WaitForRecognition_ready factory w t3 R hf3 hr3
  have hC3 : eventsCapable t3 := eventsCapable_of_sameWorld (sameWorld_trans hWu w3) hC
  obtain ⟨s5, s6, e5, e6, a6⟩ := stop_phase b c
    { t3 with
        m_recoAsyncResult := none
        log := t3.log ++ [.mutexLock, .dbgAssert true, .mutexUnlock] }
    (eventsCapable_of_sameWorld (s := t3) ⟨rfl, rfl, rfl, rfl⟩ hC3)
    (inflightCapable_congr rfl rfl rfl i3)
  refine ⟨s6, ?_, ?_⟩
  · simp only [RecognizeAsync_task, envRun, e3, e4, e5, e6]
  · have h0 : advances s (deliver (some R)
        (StartRecognizing .SingleShot [] { s with m_recoAsyncWaiting := true }))
        [.StartRecognizing .SingleShot [], .notifyAll] := by
      rw [hu]
      exact ⟨[.StartRecognizing .SingleShot [], .mutexLock, .notifyAll, .mutexUnlock],
        by simp [StartRecognizing, emit], rfl⟩
    have h4 : advances t3
        { t3 with
            m_recoAsyncResult := none
            log := t3.log ++ [.mutexLock, .dbgAssert true, .mutexUnlock] } [] :=
      ⟨[.mutexLock, .dbgAssert true, .mutexUnlock], rfl, rfl⟩
    simpa using advances_trans h0 (advances_trans a3 (advances_trans h4 a6))

theorem task_delivered_before_start (factory : ResultType → Option Res) (s : CSpxSession)
    (R : Res) (a a1 b c : Nat) (w : WaitOutcome) (hC : eventsCapable s)
    (hI : s.inflight = []) :
    ∃ t, RecognizeAsync_task factory
        { beforeStart := .deliver (some R) :: List.replicate a .dispatch,
          duringStart := List.replicate a1 .dispatch,
          wait := w, beforeStop := List.replicate b .dispatch,
          duringStop := List.replicate c .dispatch } s = .ok (t, some R) ∧
      advances s t [.notifyAll, .StartRecognizing .SingleShot [], .StopRecognizing .SingleShot] := by
  have hu := deliver_waiting (some R) { s with m_recoAsyncWaiting := true } rfl
  have hWu : sameWorld s (deliver (some R) { s with m_recoAsyncWaiting := true }) := by
    rw [hu]; exact ⟨rfl, rfl, rfl, rfl⟩
  have hIu : inflightCapable (deliver (some R) { s with m_recoAsyncWaiting := true }) :=
    inflightCapable_deliver _ _ (inflightCapable_of_nil hI)
  obtain ⟨t2, e2, w2, f2, r2, a2, i2⟩ :=
    envRun_dispatch_quiet a _ (eventsCapable_of_sameWorld hWu hC) hIu
  have hC2 : eventsCapable t2 := eventsCapable_of_sameWorld (sameWorld_trans hWu w2) hC
  obtain ⟨t3, e3, w3, f3, r3, a3, i3⟩ :=
    envRun_dispatch_quiet a1 (StartRecognizing .SingleShot [] t2)
      (eventsCapable_of_sameWorld (s := t2) ⟨rfl, rfl, rfl, rfl⟩ hC2)
      (inflightCapable_congr rfl rfl rfl i2)
  have hf3 : t3.m_recoAsyncWaiting = false := by
    rw [f3]; show t2.m_recoAsyncWaiting = false; rw [f2, hu]
  have hr3 : t3.m_recoAsyncResult = some R := by
    rw [r3]; show t2.m_recoAsyncResult = some R; rw [r2, hu]
  have e4 := WaitForRecognition_ready factory w t3 R hf3 hr3
  have hC3 : eventsCapable t3 :=
    eventsCapable_of_sameWorld (s := t2) ⟨w3.1, w3.2.1, w3.2.2.1, w3.2.2.2⟩ hC2
  obtain ⟨s5, s6, e5, e6, a6⟩ := stop_phase b c
    { t3 with
        m_recoAsyncResult := none
        log := t3.log ++ [.mutexLock, .dbgAssert true, .mutexUnlock] }
    (eventsCapable_of_sameWorld (s := t3) ⟨rfl, rfl, rfl, rfl⟩ hC3)
    (inflightCapable_congr rfl rfl rfl i3)
  refine ⟨s6, ?_, ?_⟩
  · simp only [RecognizeAsync_task, envRun, e2, e3, e4, e5, e6]
  · have h0 : advances s (deliver (some R) { s with m_recoAsyncWaiting := true })
        [.notifyAll] := by
      rw [hu]
      exact ⟨[.mutexLock, .notifyAll, .mutexUnlock], rfl, rfl⟩
    have h1 : advances t2 (StartRecognizing .SingleShot [] t2)
        [.StartRecognizing .SingleShot []] := advances_emit _ t2
    have h4 : advances t3
        { t3 with
            m_recoAsyncResult := none
            log := t3.log ++ [.mutexLock, .dbgAssert true, .mutexUnlock] } [] :=
      ⟨[.mutexLock, .dbgAssert true, .mutexUnlock], rfl, rfl⟩
    simpa using advances_trans h0 (advances_trans a2 (advances_trans h1
      (advances_trans a3 (advances_trans h4 a6))))

/-! ## RecognizeAsync -/

theorem deliver_then_dispatch_agrees :
    (envRun (.deliver (some 7) :: List.replicate 4 .dispatch) twiceRegistered).toOption.map
        (fun t => (t.log, t.m_recoAsyncWaiting, t.m_recoAsyncResult, t.inflight)) =
      (WaitForRecognition_Complete (some 7) twiceRegistered).toOption.map
        (fun t => (t.log, t.m_recoAsyncWaiting, t.m_recoAsyncResult, t.inflight)) := by
  decide

/-- C2, as the code has it: on a session whose live registered listeners narrow and that
has no dispatch in flight, for every result `R` and every schedule of the other threads
(`a`, `a1`, `b`, `c` steps of the deliverer's `FireResultEvent` at the points where it
can run), the work launched by `RecognizeAsync` yields exactly `R` when
`WaitForRecognition_Complete(R)` is called by another thread after the flag is set.  When
the call arrives during the timed wait or while `StartRecognizing` runs, the task calls
`StartRecognizing(SingleShot)` before the completion of the rendezvous and
`StopRecognizing(SingleShot)` after it, wherever the result events fall; when it arrives
before `StartRecognizing` is called, the completion comes first. -/
theorem RecognizeAsync_delivered (factory : ResultType → Option Res) (s : CSpxSession)
    (R : Res) (a a1 b c : Nat) (w : WaitOutcome) (hC : eventsCapable s)
    (hI : s.inflight = []) :
    (RecognizeAsync factory).state = .AOS_Started ∧
    (∃ t, (RecognizeAsync factory).future
        { beforeStart := [], duringStart := [], wait := .delivered (some R) a,
          beforeStop := List.replicate b .dispatch,
          duringStop := List.replicate c .dispatch } s = .ok (t, some R) ∧
      milestones (produced s t) =
        [.StartRecognizing .SingleShot [], .notifyAll, .StopRecognizing .SingleShot]) ∧
    (∃ t, (RecognizeAsync factory).future
        { beforeStart := [], duringStart := .deliver (some R) :: List.replicate a .dispatch,
          wait := w, beforeStop := List.replicate b .dispatch,
          duringStop := List.replicate c .dispatch } s = .ok (t, some R) ∧
      milestones (produced s t) =
        [.StartRecognizing .SingleShot [], .notifyAll, .StopRecognizing .SingleShot]) ∧
    (∃ t, (RecognizeAsync factory).future
        { beforeStart := .deliver (some R) :: List.replicate a .dispatch,
          duringStart := List.replicate a1 .dispatch,
          wait := w, beforeStop := List.replicate b .dispatch,
          duringStop := List.replicate c .dispatch } s = .ok (t, some R) ∧
      milestones (produced s t) =
        [.notifyAll, .StartRecognizing .SingleShot [], .StopRecognizing .SingleShot]) := by
  refine ⟨rfl, ?_, ?_, ?_⟩
  · obtain ⟨t, e, h⟩ := task_delivered_during_wait factory s R a b c hC hI
    exact ⟨t, e, advances_produced h⟩
  · obtain ⟨t, e, h⟩ := task_delivered_during_start factory s R a b c w hC hI
    exact ⟨t, e, advances_produced h⟩
  · obtain ⟨t, e, h⟩ := task_delivered_before_start factory s R a a1 b c w hC hI
    exact ⟨t, e, advances_produced h⟩

theorem RecognizeAsync_delivered_witness :
    eventsCapable idleListener ∧ idleListener.inflight = [] ∧
    (RecognizeAsync demoFactory).state = .AOS_Started ∧
    (∃ t, (RecognizeAsync demoFactory).future
        { beforeStart := [], duringStart := [], wait := .delivered (some 7) 1,
          beforeStop := List.replicate 1 .dispatch,
          duringStop := List.replicate 5 .dispatch } idleListener = .ok (t, some 7) ∧
      milestones (produced idleListener t) =
        [.StartRecognizing .SingleShot [], .notifyAll, .StopRecognizing .SingleShot]) ∧
    (∃ t, (RecognizeAsync demoFactory).future
        { beforeStart := [], duringStart := .deliver (some 7) :: List.replicate 1 .dispatch,
          wait := .timeout, beforeStop := List.replicate 1 .dispatch,
          duringStop := List.replicate 5 .dispatch } idleListener = .ok (t, some 7) ∧
      milestones (produced idleListener t) =
        [.StartRecognizing .SingleShot [], .notifyAll, .StopRecognizing .SingleShot]) ∧
    (∃ t, (RecognizeAsync demoFactory).future
        { beforeStart := .deliver (some 7) :: List.replicate 1 .dispatch,
          duringStart := List.replicate 0 .dispatch,
          wait := .timeout, beforeStop := List.replicate 1 .dispatch,
          duringStop := List.replicate 5 .dispatch } idleListener = .ok (t, some 7) ∧
      milestones (produced idleListener t) =
        [.notifyAll, .StartRecognizing .SingleShot [], .StopRecognizing .SingleShot]) :=
  ⟨idleListener_capable, rfl,
    RecognizeAsync_delivered demoFactory idleListener 7 1 0 1 5 .timeout idleListener_capable rfl⟩

/-- C2, as stated, fails: with listener 1 registered, when `WaitForRecognition_Complete(7)`
is called after the task has set the flag and before it calls `StartRecognizing`, the
handle yields 7 but the completion precedes `StartRecognizing(SingleShot)`; and when it is
called during the timed wait and the deliverer's dispatch runs late, the result event
reaches the listener after `StopRecognizing(SingleShot)` has been called. -/
theorem RecognizeAsync_completion_before_start :
    ((RecognizeAsync demoFactory).future
        { beforeStart := [.deliver (some 7)], duringStart := [], wait := .timeout,
          beforeStop := [], duringStop := [] } idleListener).toOption.map
        (fun out => (out.2, milestones (produced idleListener out.1))) =
      some (some 7,
        [.notifyAll, .StartRecognizing .SingleShot [], .StopRecognizing .SingleShot]) ∧
    ((RecognizeAsync demoFactory).future
        { beforeStart := [], duringStart := [], wait := .delivered (some 7) 0,
          beforeStop := [], duringStop := [.dispatch, .dispatch] } idleListener).toOption.map
        (fun out => (out.2,
          (produced idleListener out.1).filter
            (fun e => isMilestone e || (listenerOf e).isSome))) =
      some (some 7,
        [.StartRecognizing .SingleShot [], .notifyAll, .StopRecognizing .SingleShot,
          .FireResultEvent 1 5 (some 7)]) := by
  decide

/-! ## Every completion dispatches -/

theorem drop_map_succ {α β : Type} (f : α → β) (xs : List α) (y : β) (ys : List β) :
    List.drop (xs.length + 1) (List.map f xs ++ y :: ys) = ys := by
  induction xs with
  | nil => rfl
  | cons x xs ih => simpa using ih

/-- C3, as the code has it: on a session whose live registered listeners narrow and whose
rendezvous is waiting, two calls `WaitForRecognition_Complete(r1)`,
`WaitForRecognition_Complete(r2)` clear the flag, store a result and notify the waiters
exactly once, on the first call, and the stored result stays `r1`; but each call
dispatches result events, so every listener receives, per live registered reference, one
event carrying `r1` and then one carrying `r2`, the second call dispatching with the flag
already false.  Likewise, with nothing stored, after the timed-out `WaitForRecognition`
(which returns the no-match result and dispatches it) a late
`WaitForRecognition_Complete(r2)` changes neither flag nor stored result and dispatches
its result events all the same. -/
theorem Complete_dispatches_on_every_call (factory : ResultType → Option Res)
    (s : CSpxSession) (r1 r2 : Option Res)
    (hW : s.m_recoAsyncWaiting = true) (hC : eventsCapable s) :
    (∃ t1 t2, WaitForRecognition_Complete r1 s = .ok t1 ∧
      WaitForRecognition_Complete r2 t1 = .ok t2 ∧
      t1.m_recoAsyncWaiting = false ∧ t1.m_recoAsyncResult = r1 ∧
      t2.m_recoAsyncWaiting = false ∧ t2.m_recoAsyncResult = r1 ∧
      (produced s t2).count .notifyAll = 1 ∧
      ∀ l,
        received l (produced s t1) =
          List.replicate ((liveRecognizers s).count l) (Ev.FireResultEvent l s.m_sessionId r1) ∧
        received l (produced t1 t2) =
          List.replicate ((liveRecognizers s).count l)
            (Ev.FireResultEvent l s.m_sessionId r2)) ∧
    (s.m_recoAsyncResult = none →
      ∃ t1 t2, WaitForRecognition factory .timeout s = .ok (t1, factory .Speech) ∧
        WaitForRecognition_Complete r2 t1 = .ok t2 ∧
        t1.m_recoAsyncWaiting = false ∧ t2.m_recoAsyncWaiting = false ∧
        t2.m_recoAsyncResult = t1.m_recoAsyncResult ∧
        (produced s t2).count .notifyAll = 1 ∧
        ∀ l,
          received l (produced s t1) =
            List.replicate ((liveRecognizers s).count l)
              (Ev.FireResultEvent l s.m_sessionId (factory .Speech)) ∧
          received l (produced t1 t2) =
            List.replicate ((liveRecognizers s).count l)
              (Ev.FireResultEvent l s.m_sessionId r2)) := by
  constructor
  · refine ⟨_, _, Complete_waiting r1 s hW hC, Complete_idle r2 _ rfl hC,
      rfl, rfl, rfl, rfl, ?_, ?_⟩
    · simp [produced, liveRecognizers, List.count_cons, List.count_eq_zero]
    · intro l
      simp [produced, liveRecognizers, received_append, received_cons, received_nil,
        received_map_result, listenerOf]
  · intro hR
    refine ⟨_, _, WaitForRecognition_timeout_eq factory s hW hR hC, Complete_idle r2 _ rfl hC,
      rfl, rfl, rfl, ?_, ?_⟩
    · simp [produced, liveRecognizers, List.count_cons, List.count_eq_zero]
    · intro l
      simp [produced, liveRecognizers, received_append, received_cons, received_nil,
        received_map_result, listenerOf, drop_map_succ]

theorem Complete_dispatches_on_every_call_witness :
    oneListener.m_recoAsyncWaiting = true ∧ eventsCapable oneListener ∧
    oneListener.m_recoAsyncResult = none ∧
    (∃ t1 t2, WaitForRecognition_Complete (some 10) oneListener = .ok t1 ∧
      WaitForRecognition_Complete (some 20) t1 = .ok t2 ∧
      t1.m_recoAsyncWaiting = false ∧ t1.m_recoAsyncResult = some 10 ∧
      t2.m_recoAsyncWaiting = false ∧ t2.m_recoAsyncResult = some 10 ∧
      (produced oneListener t2).count .notifyAll = 1 ∧
      ∀ l,
        received l (produced oneListener t1) =
          List.replicate ((liveRecognizers oneListener).count l)
            (Ev.FireResultEvent l oneListener.m_sessionId (some 10)) ∧
        received l (produced t1 t2) =
          List.replicate ((liveRecognizers oneListener).count l)
            (Ev.FireResultEvent l oneListener.m_sessionId (some 20))) ∧
    (∃ t1 t2, WaitForRecognition demoFactory .timeout oneListener =
          .ok (t1, demoFactory .Speech) ∧
        WaitForRecognition_Complete (some 20) t1 = .ok t2 ∧
        t1.m_recoAsyncWaiting = false ∧ t2.m_recoAsyncWaiting = false ∧
        t2.m_recoAsyncResult = t1.m_recoAsyncResult ∧
        (produced oneListener t2).count .notifyAll = 1 ∧
        ∀ l,
          received l (produced oneListener t1) =
            List.replicate ((liveRecognizers oneListener).count l)
              (Ev.FireResultEvent l oneListener.m_sessionId (demoFactory .Speech)) ∧
          received l (produced t1 t2) =
            List.replicate ((liveRecognizers oneListener).count l)
              (Ev.FireResultEvent l oneListener.m_sessionId (some 20))) :=
  ⟨rfl, oneListener_capable, rfl,
    (Complete_dispatches_on_every_call demoFactory oneListener (some 10) (some 20) rfl
      oneListener_capable).1,
    (Complete_dispatches_on_every_call demoFactory oneListener (some 10) (some 20) rfl
      oneListener_capable).2 rfl⟩

/-! ## Session stopped -/

theorem runReg_frame (ops : List RegOp) :
    ∀ s : CSpxSession,
      (runReg ops s).m_recoAsyncWaiting = s.m_recoAsyncWaiting ∧
      (runReg ops s).m_recoAsyncResult = s.m_recoAsyncResult ∧
      (runReg ops s).plain = s.plain ∧
      ∃ d, (runReg ops s).log = s.log ++ d ∧ ∀ e ∈ d, e = Ev.listWrite := by
  induction ops with
  | nil => intro s; exact ⟨rfl, rfl, rfl, [], by simp [runReg], by simp⟩
  | cons op ops ih =>
    intro s
    obtain ⟨h1, h2, h3, d, h4, h5⟩ := ih (stepReg op s)
    rw [runReg]
    cases op with
    | add p =>
      refine ⟨h1, h2, h3, Ev.listWrite :: d, ?_, ?_⟩
      · rw [h4]; simp [stepReg, AddRecognizer, emit]
      · intro e he
        rcases List.mem_cons.1 he with h | h
        · exact h
        · exact h5 e h
    | remove p =>
      refine ⟨h1, h2, h3, Ev.listWrite :: d, ?_, ?_⟩
      · rw [h4]; simp [stepReg, RemoveRecognizer, emit]
      · intro e he
        rcases List.mem_cons.1 he with h | h
        · exact h
        · exact h5 e h
    | destroy o => exact ⟨h1, h2, h3, d, h4, h5⟩

theorem runReg_registry (ops : List RegOp) :
    ∀ s u : CSpxSession, s.m_recognizers = u.m_recognizers → s.expired = u.expired →
      (runReg ops s).m_recognizers = (runReg ops u).m_recognizers ∧
      (runReg ops s).expired = (runReg ops u).expired := by
  induction ops with
  | nil => intro s u h1 h2; exact ⟨h1, h2⟩
  | cons op ops ih =>
    intro s u h1 h2
    rw [runReg, runReg]
    apply ih
    · cases op <;> simp [stepReg, AddRecognizer, RemoveRecognizer, emit, h1, h2]
    · cases op <;> simp [stepReg, AddRecognizer, RemoveRecognizer, emit, h2]

theorem notifications_append (a b : List Ev) :
    notifications (a ++ b) = notifications a ++ notifications b := by
  simp [notifications]

theorem notifications_writes (d : List Ev) (h : ∀ e ∈ d, e = Ev.listWrite) :
    notifications d = [] := by
  simp only [notifications, List.filter_eq_nil_iff]
  intro e he
  rw [h e he]
  simp [listenerOf]

theorem received_writes (l : ObjId) (d : List Ev) (h : ∀ e ∈ d, e = Ev.listWrite) :
    received l d = [] := by
  simp only [received, List.filter_eq_nil_iff]
  intro e he
  rw [h e he]
  simp [listenerOf]

theorem notifications_map (fire : ObjId → Ev) (hf : ∀ x, listenerOf (fire x) = some x)
    (xs : List ObjId) : notifications (xs.map fire) = xs.map fire := by
  simp only [notifications, List.filter_eq_self]
  intro e he
  obtain ⟨x, _, hx⟩ := List.mem_map.1 he
  rw [← hx, hf x]
  rfl

theorem notifications_map_result (sid : SessionId) (r : Option Res) (xs : List ObjId) :
    notifications (xs.map (fun p => Ev.FireResultEvent p sid r)) =
      xs.map (fun p => Ev.FireResultEvent p sid r) :=
  notifications_map (fun p => Ev.FireResultEvent p sid r) (fun _ => rfl) xs

theorem notifications_map_stopped (sid : SessionId) (xs : List ObjId) :
    notifications (xs.map (fun p => Ev.FireSessionStopped p sid)) =
      xs.map (fun p => Ev.FireSessionStopped p sid) :=
  notifications_map (fun p => Ev.FireSessionStopped p sid) (fun _ => rfl) xs

theorem stopped_dispatch (meanwhile : List RegOp) (s mid : CSpxSession)
    (h1 : mid.m_recognizers = s.m_recognizers) (h2 : mid.expired = s.expired)
    (h3 : mid.plain = s.plain) (h4 : mid.m_sessionId = s.m_sessionId)
    (hC2 : eventsCapable (runReg meanwhile s)) :
    ∃ t d, forEachRecognizer
        (fun p => Ev.FireSessionStopped p (runReg meanwhile mid).m_sessionId)
        (runReg meanwhile mid).m_recognizers (snapshot (runReg meanwhile mid)) = .ok t ∧
      t.m_recoAsyncWaiting = mid.m_recoAsyncWaiting ∧
      t.m_recoAsyncResult = mid.m_recoAsyncResult ∧
      (∀ e ∈ d, e = Ev.listWrite) ∧
      t.log = mid.log ++ (d ++ ([.mutexLock, .listRead, .mutexUnlock] ++
        (liveRecognizers (runReg meanwhile s)).map
          (fun p => Ev.FireSessionStopped p s.m_sessionId))) := by
  obtain ⟨f1, f2, f3, d, f4, f5⟩ := runReg_frame meanwhile mid
  obtain ⟨g1, g2⟩ := runReg_registry meanwhile mid s h1 h2
  have g3 : (runReg meanwhile mid).plain = (runReg meanwhile s).plain := by
    rw [f3, h3, (runReg_frame meanwhile s).2.2.1]
  have g4 : (runReg meanwhile mid).m_sessionId = s.m_sessionId := by
    rw [runReg_sessionId, h4]
  have hcap : ∀ o ∈ (runReg meanwhile mid).m_recognizers.filterMap
      (weakLock (snapshot (runReg meanwhile mid)).expired),
      o ∉ (snapshot (runReg meanwhile mid)).plain := by
    show ∀ o ∈ (runReg meanwhile mid).m_recognizers.filterMap
      (weakLock (runReg meanwhile mid).expired), o ∉ (runReg meanwhile mid).plain
    rw [g1, g2, g3]
    exact hC2
  refine ⟨_, d, forEachRecognizer_ok _ _ _ hcap, f1, f2, f5, ?_⟩
  show (snapshot (runReg meanwhile mid)).log ++ _ = _
  have hl : (snapshot (runReg meanwhile mid)).expired = (runReg meanwhile s).expired := g2
  rw [hl, g1, g4]
  simp [snapshot, emit, f4, liveRecognizers]

theorem produced_eq {s t : CSpxSession} {d : List Ev} (h : t.log = s.log ++ d) :
    produced s t = d := by
  simp [produced, h]

/-- C8, as the code has it: on a session whose live registered listeners narrow, at entry
and at the second snapshot, with an attempt outstanding `FireSessionStoppedEvent` first
completes the attempt with the factory's no-match result (`mid` is the state when
`EnsureFireResultEvent` returns: flag false, no-match stored) and only then takes its own
snapshot and sends the session-stopped notifications, with the flag false.  All result
events precede all session-stopped events; the result events go to the references live
at entry, the session-stopped events to those live after the registry calls and releases
`meanwhile`: a listener registered in both receives its result events before its
`FireSessionStopped`, one registered in between receives `FireSessionStopped` alone.  With
no attempt outstanding only session-stopped notifications are sent and flag and stored
result are unchanged. -/
theorem FireSessionStoppedEvent_two_snapshots (factory : ResultType → Option Res)
    (meanwhile : List RegOp) (s : CSpxSession) (hC : eventsCapable s)
    (hC2 : eventsCapable (runReg meanwhile s)) :
    (s.m_recoAsyncWaiting = true →
      ∃ mid t, EnsureFireResultEvent factory s = .ok mid ∧
        mid.m_recoAsyncWaiting = false ∧ mid.m_recoAsyncResult = factory .Speech ∧
        FireSessionStoppedEvent factory meanwhile s = .ok t ∧
        t.m_recoAsyncWaiting = false ∧
        notifications (produced s t) =
          (liveRecognizers s).map
            (fun p => Ev.FireResultEvent p s.m_sessionId (factory .Speech)) ++
          (liveRecognizers (runReg meanwhile s)).map
            (fun p => Ev.FireSessionStopped p s.m_sessionId) ∧
        ∀ l, received l (produced s t) =
          List.replicate ((liveRecognizers s).count l)
            (Ev.FireResultEvent l s.m_sessionId (factory .Speech)) ++
          List.replicate ((liveRecognizers (runReg meanwhile s)).count l)
            (Ev.FireSessionStopped l s.m_sessionId)) ∧
    (s.m_recoAsyncWaiting = false →
      ∃ t, FireSessionStoppedEvent factory meanwhile s = .ok t ∧
        t.m_recoAsyncWaiting = s.m_recoAsyncWaiting ∧
        t.m_recoAsyncResult = s.m_recoAsyncResult ∧
        notifications (produced s t) =
          (liveRecognizers (runReg meanwhile s)).map
            (fun p => Ev.FireSessionStopped p s.m_sessionId) ∧
        ∀ l, received l (produced s t) =
          List.replicate ((liveRecognizers (runReg meanwhile s)).count l)
            (Ev.FireSessionStopped l s.m_sessionId)) := by
  constructor
  · intro hW
    have hE := Ensure_waiting factory s hW hC
    obtain ⟨t, d, ht, hf, _, hd, hlog⟩ := stopped_dispatch meanwhile s
      { s with
          m_recoAsyncWaiting := false
          m_recoAsyncResult := factory .Speech
          log := s.log ++
            [.CreateNoMatchResult .Speech, .mutexLock, .notifyAll, .mutexUnlock,
              .mutexLock, .listRead, .mutexUnlock] ++
            (liveRecognizers s).map
              (fun p => Ev.FireResultEvent p s.m_sessionId (factory .Speech)) }
      rfl rfl rfl rfl hC2
    have hp : produced s t =
        [.CreateNoMatchResult .Speech, .mutexLock, .notifyAll, .mutexUnlock,
          .mutexLock, .listRead, .mutexUnlock] ++
        ((liveRecognizers s).map
            (fun p => Ev.FireResultEvent p s.m_sessionId (factory .Speech)) ++
          (d ++ ([.mutexLock, .listRead, .mutexUnlock] ++
            (liveRecognizers (runReg meanwhile s)).map
              (fun p => Ev.FireSessionStopped p s.m_sessionId)))) := by
      apply produced_eq
      rw [hlog]
      simp
    refine ⟨_, t, hE, rfl, rfl, ?_, hf, ?_, ?_⟩
    · unfold FireSessionStoppedEvent
      rw [hE]
      exact ht
    · rw [hp]
      simp only [notifications_append, notifications_writes d hd,
        notifications_map_result, notifications_map_stopped]
      simp [notifications, listenerOf]
    · intro l
      rw [hp]
      simp only [received_append, received_writes l d hd, received_map_result,
        received_map_stopped]
      simp [received_cons, received_nil, listenerOf]
  · intro hW
    obtain ⟨t, d, ht, hf, hr, hd, hlog⟩ := stopped_dispatch meanwhile s s rfl rfl rfl rfl hC2
    have hp : produced s t = d ++ ([.mutexLock, .listRead, .mutexUnlock] ++
        (liveRecognizers (runReg meanwhile s)).map
          (fun p => Ev.FireSessionStopped p s.m_sessionId)) := produced_eq hlog
    refine ⟨t, ?_, hf, hr, ?_, ?_⟩
    · unfold FireSessionStoppedEvent
      rw [Ensure_idle factory s hW]
      exact ht
    · rw [hp]
      simp only [notifications_append, notifications_writes d hd,
        notifications_map_result, notifications_map_stopped]
      simp [notifications, listenerOf]
    · intro l
      rw [hp]
      simp only [received_append, received_writes l d hd, received_map_stopped]
      simp [received_cons, received_nil, listenerOf]

theorem FireSessionStoppedEvent_two_snapshots_witness :
    eventsCapable oneListener ∧ eventsCapable (runReg lateRegistration oneListener) ∧
    eventsCapable idleListener ∧ eventsCapable (runReg lateRegistration idleListener) ∧
    (∃ mid t, EnsureFireResultEvent demoFactory oneListener = .ok mid ∧
        mid.m_recoAsyncWaiting = false ∧ mid.m_recoAsyncResult = demoFactory .Speech ∧
        FireSessionStoppedEvent demoFactory lateRegistration oneListener = .ok t ∧
        t.m_recoAsyncWaiting = false ∧
        notifications (produced oneListener t) =
          (liveRecognizers oneListener).map
            (fun p => Ev.FireResultEvent p oneListener.m_sessionId (demoFactory .Speech)) ++
          (liveRecognizers (runReg lateRegistration oneListener)).map
            (fun p => Ev.FireSessionStopped p oneListener.m_sessionId) ∧
        ∀ l, received l (produced oneListener t) =
          List.replicate ((liveRecognizers oneListener).count l)
            (Ev.FireResultEvent l oneListener.m_sessionId (demoFactory .Speech)) ++
          List.replicate ((liveRecognizers (runReg lateRegistration oneListener)).count l)
            (Ev.FireSessionStopped l oneListener.m_sessionId)) ∧
    (∃ t, FireSessionStoppedEvent demoFactory lateRegistration idleListener = .ok t ∧
        t.m_recoAsyncWaiting = idleListener.m_recoAsyncWaiting ∧
        t.m_recoAsyncResult = idleListener.m_recoAsyncResult ∧
        notifications (produced idleListener t) =
          (liveRecognizers (runReg lateRegistration idleListener)).map
            (fun p => Ev.FireSessionStopped p idleListener.m_sessionId) ∧
        ∀ l, received l (produced idleListener t) =
          List.replicate ((liveRecognizers (runReg lateRegistration idleListener)).count l)
            (Ev.FireSessionStopped l idleListener.m_sessionId)) :=
  ⟨oneListener_capable, by decide, idleListener_capable, by decide,
    (FireSessionStoppedEvent_two_snapshots demoFactory lateRegistration oneListener
      oneListener_capable (by decide)).1 rfl,
    (FireSessionStoppedEvent_two_snapshots demoFactory lateRegistration idleListener
      idleListener_capable (by decide)).2 rfl⟩

/-- C8, as stated, fails: on a waiting session with listener 1, when listener 2 is
registered between the result dispatch and the second snapshot, listener 2 is live and
receives `FireSessionStopped` with no result event before it, while listener 1 receives
its result event and then `FireSessionStopped`. -/
theorem FireSessionStoppedEvent_late_listener :
    (FireSessionStoppedEvent demoFactory lateRegistration oneListener).toOption.map
        (fun t => (received 1 (produced oneListener t), received 2 (produced oneListener t),
          decide (2 ∈ liveRecognizers t))) =
      some ([Ev.FireResultEvent 1 5 (some 99), Ev.FireSessionStopped 1 5],
        [Ev.FireSessionStopped 2 5], true) := by
  decide

end CSpxSession
